import Mathlib

/-!
Shallow embedding of the physics / world modules of the Doom-Clone
repository (src/physics/raycast.py, src/physics/aabb.py,
src/physics/collision.py, src/physics/physics.py, src/world/wall.py,
src/world/sector.py, src/world/bsp.py).

Numpy float32 arithmetic is idealised as exact field arithmetic: the parts
of the code that are pure rational arithmetic are embedded generically over
a `LinearOrderedField` (so they are executable at `ℚ`), while the parts
that take square roots (`np.linalg.norm`, `np.sqrt`) are embedded at `ℝ`
with `Real.sqrt`.
-/

section Vec

variable {α : Type*} [LinearOrderedField α]

/-- A 3-component vector `[x, y, z]`, the embedding of the numpy arrays of
length 3 used throughout the code. -/
structure Vec3 (α : Type*) where
  x : α
  y : α
  z : α
deriving Repr, DecidableEq

namespace Vec3

def add (a b : Vec3 α) : Vec3 α := ⟨a.x + b.x, a.y + b.y, a.z + b.z⟩

def sub (a b : Vec3 α) : Vec3 α := ⟨a.x - b.x, a.y - b.y, a.z - b.z⟩

def smul (c : α) (a : Vec3 α) : Vec3 α := ⟨c * a.x, c * a.y, c * a.z⟩

def neg (a : Vec3 α) : Vec3 α := ⟨-a.x, -a.y, -a.z⟩

def zero : Vec3 α := ⟨0, 0, 0⟩

instance : Add (Vec3 α) := ⟨Vec3.add⟩

instance : Sub (Vec3 α) := ⟨Vec3.sub⟩

instance : Neg (Vec3 α) := ⟨Vec3.neg⟩

instance : SMul α (Vec3 α) := ⟨Vec3.smul⟩

instance : Zero (Vec3 α) := ⟨Vec3.zero⟩

/-- Dot product, the embedding of `np.dot` on length-3 arrays. -/
def dot (a b : Vec3 α) : α := a.x * b.x + a.y * b.y + a.z * b.z

/-- Squared euclidean norm; `np.linalg.norm` is `Real.sqrt` of this. -/
def normSq (a : Vec3 α) : α := a.x * a.x + a.y * a.y + a.z * a.z

theorem add_def (a b : Vec3 α) : a + b = ⟨a.x + b.x, a.y + b.y, a.z + b.z⟩ := rfl

theorem sub_def (a b : Vec3 α) : a - b = ⟨a.x - b.x, a.y - b.y, a.z - b.z⟩ := rfl

theorem smul_def (c : α) (a : Vec3 α) : c • a = ⟨c * a.x, c * a.y, c * a.z⟩ := rfl

theorem zero_def : (0 : Vec3 α) = ⟨0, 0, 0⟩ := rfl

end Vec3

/-- Euclidean norm of a vector at `ℝ` (`np.linalg.norm`). -/
noncomputable def Vec3.norm (a : Vec3 ℝ) : ℝ := Real.sqrt a.normSq

end Vec

section WallSector

variable {α : Type*} [LinearOrderedField α]

/-- Embedding of `world/sector.py` `Sector`: the fields the physics and BSP
code reads (`id`, `floor_height`, `ceiling_height`). -/
structure Sector (α : Type*) where
  id : ℕ
  floor_height : α
  ceiling_height : α
deriving Repr, DecidableEq

/-- Embedding of `world/wall.py` `Wall`: `start`, `end` (here `end_`, since
`end` is reserved), the owning `sector`, and the precomputed `normal`
field.  The source computes `normal` in `_compute_normal` as the
normalisation of `[dz, 0, -dx]`; since normalisation takes a square root it
is kept here as a stored field, and theorems that rely on it being the
unit perpendicular take that as an explicit hypothesis
(`Wall.normalValid`). -/
structure Wall (α : Type*) where
  start : Vec3 α
  end_ : Vec3 α
  sector : Sector α
  normal : Vec3 α
deriving Repr, DecidableEq

namespace Wall

/-- The `normal` field is what `Wall._compute_normal` stores for a
non-degenerate wall: y-component zero, perpendicular in the XZ plane to
the wall direction, of unit length. -/
def normalValid (w : Wall α) : Prop :=
  w.normal.y = 0 ∧
  w.normal.x * (w.end_.x - w.start.x) + w.normal.z * (w.end_.z - w.start.z) = 0 ∧
  w.normal.x * w.normal.x + w.normal.z * w.normal.z = 1

/-- Embedding of `Wall.intersects_ray`: 2D line/line intersection in the XZ
plane.  The source returns `(hit, distance, point)` with
`(False, inf, None)` on a miss; a miss is embedded as `none` and a hit as
`some (u, hit_point)`. -/
def intersectsRay (w : Wall α) (origin direction : Vec3 α) : Option (α × Vec3 α) :=
  let x1 := w.start.x; let z1 := w.start.z
  let x2 := w.end_.x; let z2 := w.end_.z
  let x3 := origin.x; let z3 := origin.z
  let dx := direction.x; let dz := direction.z
  let denom := (x1 - x2) * dz - (z1 - z2) * dx
  if |denom| < 1/1000000 then none
  else
    let t := ((x1 - x3) * dz - (z1 - z3) * dx) / denom
    let u := -((x1 - x2) * (z1 - z3) - (z1 - z2) * (x1 - x3)) / denom
    if 0 ≤ t ∧ t ≤ 1 ∧ 0 ≤ u then some (u, origin + u • direction)
    else none

end Wall

end WallSector

section Box

variable {α : Type*} [LinearOrderedField α]

/-- Embedding of `physics/aabb.py` `AABB`. -/
structure AABB (α : Type*) where
  min : Vec3 α
  max : Vec3 α
deriving Repr, DecidableEq

namespace AABB

/-- `AABB.from_center_size`. -/
def fromCenterSize (center size : Vec3 α) : AABB α :=
  let halfSize : Vec3 α := (1/2 : α) • size
  ⟨center - halfSize, center + halfSize⟩

/-- `AABB.get_center`. -/
def getCenter (b : AABB α) : Vec3 α := (1/2 : α) • (b.min + b.max)

/-- `AABB.get_size`. -/
def getSize (b : AABB α) : Vec3 α := b.max - b.min

/-- `AABB.translate`. -/
def translate (b : AABB α) (offset : Vec3 α) : AABB α :=
  ⟨b.min + offset, b.max + offset⟩

/-- `AABB.intersects`. -/
def intersects (b other : AABB α) : Bool :=
  decide (b.min.x ≤ other.max.x ∧ b.max.x ≥ other.min.x ∧
          b.min.y ≤ other.max.y ∧ b.max.y ≥ other.min.y ∧
          b.min.z ≤ other.max.z ∧ b.max.z ≥ other.min.z)

/-- The component-wise clamp `np.where(np.abs(direction) < 1e-8, 1e-8,
direction)` performed by `AABB.intersect_ray`: a component whose absolute
value is below `1e-8` is replaced by the constant `1e-8` (the second
argument of `np.where` is the positive scalar `1e-8`). -/
def clampDirComponent (d : α) : α :=
  if |d| < 1/100000000 then 1/100000000 else d

/-- The slab entry/exit parameters `(t_near, t_far)` computed by
`AABB.intersect_ray` (after the component clamp, `t1 = (min - origin) /
direction` and `t2 = (max - origin) / direction` per axis, then
`t_near = max(min(t1, t2))` and `t_far = min(max(t1, t2))`). -/
def slabInterval (b : AABB α) (origin direction : Vec3 α) : α × α :=
  let dir : Vec3 α := ⟨clampDirComponent direction.x, clampDirComponent direction.y,
                       clampDirComponent direction.z⟩
  let t1x := (b.min.x - origin.x) / dir.x
  let t1y := (b.min.y - origin.y) / dir.y
  let t1z := (b.min.z - origin.z) / dir.z
  let t2x := (b.max.x - origin.x) / dir.x
  let t2y := (b.max.y - origin.y) / dir.y
  let t2z := (b.max.z - origin.z) / dir.z
  let tNear := Max.max (Max.max (Min.min t1x t2x) (Min.min t1y t2y)) (Min.min t1z t2z)
  let tFar := Min.min (Min.min (Max.max t1x t2x) (Max.max t1y t2y)) (Max.max t1z t2z)
  (tNear, tFar)

/-- Embedding of `AABB.intersect_ray`, the slab test.  Returns
`(hit, t_near, t_far)`. -/
def intersectRay (b : AABB α) (origin direction : Vec3 α) : Bool × α × α :=
  let i := slabInterval b origin direction
  if i.1 > i.2 ∨ i.2 < 0 then (false, 0, 0)
  else (true, i.1, i.2)

/-- The clamp as the specification words it ("clamped to the signed value
`1e-8`, preserving sign"): small components are replaced by `1e-8`
carrying the component's original sign.  This follows the spec text, not
the source; it is compared against `clampDirComponent` (the source
behaviour) to refute the sign-preservation part of the spec. -/
def signedClampSpec (d : α) : α :=
  if |d| < 1/100000000 then (if d < 0 then -(1/100000000) else 1/100000000) else d

/-- `AABB.intersect_ray` as it would behave with the spec-worded
sign-preserving clamp; identical to `slabInterval`/`intersectRay` except
for the clamp.  Used only to exhibit an input where the spec-worded
behaviour and the source behaviour differ. -/
def intersectRaySigned (b : AABB α) (origin direction : Vec3 α) : Bool × α × α :=
  let dir : Vec3 α := ⟨signedClampSpec direction.x, signedClampSpec direction.y,
                       signedClampSpec direction.z⟩
  let t1x := (b.min.x - origin.x) / dir.x
  let t1y := (b.min.y - origin.y) / dir.y
  let t1z := (b.min.z - origin.z) / dir.z
  let t2x := (b.max.x - origin.x) / dir.x
  let t2y := (b.max.y - origin.y) / dir.y
  let t2z := (b.max.z - origin.z) / dir.z
  let tNear := Max.max (Max.max (Min.min t1x t2x) (Min.min t1y t2y)) (Min.min t1z t2z)
  let tFar := Min.min (Min.min (Max.max t1x t2x) (Max.max t1y t2y)) (Max.max t1z t2z)
  if tNear > tFar ∨ tFar < 0 then (false, 0, 0)
  else (true, tNear, tFar)

end AABB

end Box

section Phys

variable {α : Type*} [LinearOrderedField α]

/-- `GRAVITY` from `core/config.py`. -/
def GRAVITY_CONST : ℚ := 20

/-- Embedding of `physics/physics.py` `PhysicsComponent` (the fields
`update` reads and writes). -/
structure PhysicsComponent (α : Type*) where
  velocity : Vec3 α
  acceleration : Vec3 α
  mass : α
  use_gravity : Bool
  on_ground : Bool
deriving Repr, DecidableEq

namespace PhysicsComponent

/-- Embedding of `PhysicsComponent.update`: gravity, velocity integration,
acceleration reset, ground damping, in the source's order. -/
def update (p : PhysicsComponent α) (dt : α) : PhysicsComponent α :=
  let acc := if p.use_gravity && !p.on_ground then
      ⟨p.acceleration.x, p.acceleration.y - (GRAVITY_CONST : α), p.acceleration.z⟩
    else p.acceleration
  let vel := p.velocity + dt • acc
  let vel := if p.on_ground then
      ⟨vel.x * (9/10 : α), vel.y, vel.z * (9/10 : α)⟩
    else vel
  { p with velocity := vel, acceleration := 0 }

/-- Embedding of `PhysicsComponent.get_displacement`. -/
def get_displacement (p : PhysicsComponent α) (dt : α) : Vec3 α :=
  dt • p.velocity

end PhysicsComponent

end Phys

section Bsp

variable {α : Type*} [LinearOrderedField α]

/-- Embedding of `world/bsp.py` `BSPNode`.  The Python class is one record
with an `is_leaf` flag; leaves carry `walls` and `sector`, inner nodes a
`partition_line` and optional children, so it is embedded as a sum. -/
inductive BSPNode (α : Type*) where
  | leaf (walls : List (Wall α)) (sector : Option (Sector α))
  | inner (partitionLine : Option (Vec3 α × Vec3 α))
          (front back : Option (BSPNode α))
deriving Repr

namespace BSPNode

/-- Embedding of `BSPNode.is_point_in_front` (for inner nodes): cross
product test in the XZ plane, `True` when there is no partition line. -/
def isPointInFront (partitionLine : Option (Vec3 α × Vec3 α)) (point : Vec3 α) : Bool :=
  match partitionLine with
  | none => true
  | some (s, e) =>
    let dx := e.x - s.x
    let dz := e.z - s.z
    let px := point.x - s.x
    let pz := point.z - s.z
    decide (dx * pz - dz * px ≥ 0)

/-- Embedding of the `while not node.is_leaf` loop of
`BSPTree.find_sector_at`: step to `front if front else back` (resp. the
mirror image), return `None` when no child exists, and the leaf's `sector`
at a leaf. -/
def findSectorFrom : BSPNode α → α → α → Option (Sector α)
  | leaf _ sector, _, _ => sector
  | inner pl front back, x, z =>
    if isPointInFront pl ⟨x, 0, z⟩ then
      match front, back with
      | some n, _ => findSectorFrom n x z
      | none, some n => findSectorFrom n x z
      | none, none => none
    else
      match back, front with
      | some n, _ => findSectorFrom n x z
      | none, some n => findSectorFrom n x z
      | none, none => none

end BSPNode

/-- Embedding of `world/bsp.py` `BSPTree`: just the optional root. -/
structure BSPTree (α : Type*) where
  root : Option (BSPNode α)

namespace BSPTree

/-- Embedding of `BSPTree._build_recursive`: the reference implementation
creates a single leaf holding all the walls, whose sector is the first
wall's sector. -/
def buildRecursive (walls : List (Wall α)) : Option (BSPNode α) :=
  match walls with
  | [] => none
  | w :: _ => some (BSPNode.leaf walls (some w.sector))

/-- Embedding of `BSPTree.build` starting from a fresh tree
(`__init__` sets `root = None`; `build` returns early on an empty wall
list, leaving the root `None`). -/
def build (walls : List (Wall α)) : BSPTree α :=
  if walls.isEmpty then ⟨none⟩
  else ⟨buildRecursive walls⟩

/-- Embedding of `BSPTree.find_sector_at`. -/
def findSectorAt (t : BSPTree α) (x z : α) : Option (Sector α) :=
  match t.root with
  | none => none
  | some n => n.findSectorFrom x z

end BSPTree

end Bsp

section PhysSystem

variable {α : Type*} [LinearOrderedField α]

/-- An entity as the physics system sees it: a `position`, a `physics`
component, and optionally an `aabb` (the `hasattr(entity, 'aabb')`
check). -/
structure PhysEntity (α : Type*) where
  position : Vec3 α
  physics : PhysicsComponent α
  aabb : Option (AABB α)
deriving Repr, DecidableEq

/-- The level as the physics system sees it: its BSP tree. -/
structure PhysLevel (α : Type*) where
  bsp_tree : BSPTree α

namespace PhysicsSystem

/-- Embedding of `PhysicsSystem._check_ground_collision`: look the sector
up at the entity's (x, z); when one is found clamp to the floor and
recompute `on_ground`, then clamp to the ceiling; when none is found
return with the entity untouched. -/
def checkGroundCollision (level : PhysLevel α) (e : PhysEntity α) : PhysEntity α :=
  match level.bsp_tree.findSectorAt e.position.x e.position.z with
  | none => e
  | some sector =>
    let e :=
      if e.position.y ≤ sector.floor_height then
        { e with
          position := ⟨e.position.x, sector.floor_height, e.position.z⟩,
          physics := { e.physics with
            velocity := ⟨e.physics.velocity.x, 0, e.physics.velocity.z⟩,
            on_ground := true } }
      else
        { e with physics := { e.physics with on_ground := false } }
    match e.aabb with
    | none => e
    | some box =>
      let entityTop := e.position.y + (box.getSize).y
      if entityTop ≥ sector.ceiling_height then
        { e with
          position := ⟨e.position.x, sector.ceiling_height - (box.getSize).y, e.position.z⟩,
          physics := { e.physics with
            velocity := ⟨e.physics.velocity.x, 0, e.physics.velocity.z⟩ } }
      else e

/-- Embedding of the per-entity body of `PhysicsSystem.update`: update the
physics component, move the entity by its displacement, then run the
ground/ceiling check. -/
def stepEntity (level : PhysLevel α) (dt : α) (e : PhysEntity α) : PhysEntity α :=
  let ph := e.physics.update dt
  let e := { e with physics := ph, position := e.position + ph.get_displacement dt }
  checkGroundCollision level e

/-- Embedding of `PhysicsSystem.update`: each registered entity is stepped
independently. -/
def update (level : PhysLevel α) (dt : α) (entities : List (PhysEntity α)) :
    List (PhysEntity α) :=
  entities.map (stepEntity level dt)

end PhysicsSystem

end PhysSystem

section Collision

/-- Result of `CollisionSystem.check_aabb_wall_collision`:
`(collides, penetration, normal)`. -/
structure WallCollision where
  collides : Bool
  penetration : ℝ
  normal : Vec3 ℝ

namespace CollisionSystem

/-- The point/segment computation at the heart of
`CollisionSystem.check_aabb_wall_collision`: project the centre
`(cx, cz)` onto the wall segment in the XZ plane with the parameter
`t = max(0, min(1, ...))` and return the offset
`(dist_x, dist_z)` from the projection to the centre. -/
noncomputable def segOffset (wall : Wall ℝ) (cx cz : ℝ) : ℝ × ℝ :=
  let x1 := wall.start.x; let z1 := wall.start.z
  let dx := wall.end_.x - x1
  let dz := wall.end_.z - z1
  let lengthSq := dx * dx + dz * dz
  let t := Max.max 0 (Min.min 1 (((cx - x1) * dx + (cz - z1) * dz) / lengthSq))
  (cx - (x1 + t * dx), cz - (z1 + t * dz))

/-- The `distance = np.sqrt(dist_x ** 2 + dist_z ** 2)` line of
`check_aabb_wall_collision`. -/
noncomputable def segDistance (wall : Wall ℝ) (cx cz : ℝ) : ℝ :=
  Real.sqrt ((segOffset wall cx cz).1 * (segOffset wall cx cz).1 +
             (segOffset wall cx cz).2 * (segOffset wall cx cz).2)

/-- Embedding of `CollisionSystem.check_aabb_wall_collision`: circle (of
radius `max(size_x, size_z) / 2` around the AABB centre) versus wall
segment in the XZ plane. -/
noncomputable def check_aabb_wall_collision (aabb : AABB ℝ) (wall : Wall ℝ) :
    WallCollision :=
  let center := aabb.getCenter
  let size := aabb.getSize
  let radius := Max.max size.x size.z * (1/2)
  let dx := wall.end_.x - wall.start.x
  let dz := wall.end_.z - wall.start.z
  let lengthSq := dx * dx + dz * dz
  if lengthSq < 1/1000000 then ⟨false, 0, 0⟩
  else
    let u := segOffset wall center.x center.z
    let distance := segDistance wall center.x center.z
    if distance < radius then
      let penetration := radius - distance
      let normal := if distance > 1/1000000 then
          (⟨u.1 / distance, 0, u.2 / distance⟩ : Vec3 ℝ)
        else wall.normal
      ⟨true, penetration, normal⟩
    else ⟨false, 0, 0⟩

/-- Embedding of `CollisionSystem.resolve_aabb_wall_collision`. -/
noncomputable def resolve_aabb_wall_collision (position : Vec3 ℝ) (aabb : AABB ℝ)
    (wall : Wall ℝ) : Vec3 ℝ :=
  let aabbAtPos := aabb.translate position
  let c := check_aabb_wall_collision aabbAtPos wall
  if c.collides then position + (c.penetration + 1/1000) • c.normal
  else position

/-- The per-wall body of the `for wall in walls` loop of
`CollisionSystem.slide_collision`, acting on the running
(position, velocity) pair. -/
noncomputable def slideStep (aabb : AABB ℝ) (pv : Vec3 ℝ × Vec3 ℝ) (wall : Wall ℝ) :
    Vec3 ℝ × Vec3 ℝ :=
  let c := check_aabb_wall_collision (aabb.translate pv.1) wall
  if c.collides then
    let newPosition := pv.1 + (c.penetration + 1/1000) • c.normal
    let velAlongNormal := pv.2.dot c.normal
    let newVelocity := if velAlongNormal < 0 then pv.2 - velAlongNormal • c.normal
      else pv.2
    (newPosition, newVelocity)
  else pv

/-- Embedding of `CollisionSystem.slide_collision`: advance to the
tentative position, then fold the per-wall push-out / velocity-projection
step over the wall list. -/
noncomputable def slide_collision (position velocity : Vec3 ℝ) (aabb : AABB ℝ)
    (walls : List (Wall ℝ)) (dt : ℝ) : Vec3 ℝ × Vec3 ℝ :=
  walls.foldl (slideStep aabb) (position + dt • velocity, velocity)

end CollisionSystem

end Collision

section Ray

/-- Embedding of `physics/raycast.py` `RaycastHit`.  The source
initialises `distance` to `float('inf')` and `point`, `normal`, `entity`
to `None`; here a not-yet-hit record has `hit = false` and the comparisons
against the infinite initial distance are carried by the `hit` flag (the
source invariant is `hit = False` exactly when `distance = inf`). -/
structure RaycastHit where
  hit : Bool
  distance : ℝ
  point : Option (Vec3 ℝ)
  normal : Option (Vec3 ℝ)
  entity : Option ℕ

/-- The initial `RaycastHit()`. -/
def RaycastHit.init : RaycastHit := ⟨false, 0, none, none, none⟩

/-- An entity as `cast_ray` sees it: a position, an optional local `aabb`
(the `hasattr(entity, 'aabb')` check), and an identifier standing for the
Python object identity recorded in `closest_hit.entity`. -/
structure RayEntity where
  id : ℕ
  position : Vec3 ℝ
  aabb : Option (AABB ℝ)

/-- The level as `cast_ray` sees it: its wall list. -/
structure RayLevel where
  walls : List (Wall ℝ)

namespace Raycast

/-- Normalisation `v / np.linalg.norm(v)` (at the zero vector the source
produces NaNs; here the junk value is the zero vector — every theorem
below either assumes the vector nonzero or is independent of this
value). -/
noncomputable def normalize (v : Vec3 ℝ) : Vec3 ℝ := (1 / v.norm) • v

/-- The candidate a wall contributes to the loop of `Raycast.cast_ray`:
`none` when `wall.intersects_ray` misses or the distance exceeds
`max_distance`, otherwise the `RaycastHit` record the loop body would
install (`point`, the wall's `normal`, `entity = None`). -/
noncomputable def wallCand (origin dir : Vec3 ℝ) (maxDistance : ℝ) (wall : Wall ℝ) :
    Option RaycastHit :=
  match wall.intersectsRay origin dir with
  | none => none
  | some (distance, point) =>
    if distance ≤ maxDistance then some ⟨true, distance, some point, some wall.normal, none⟩
    else none

/-- The candidate an entity contributes to the loop of `Raycast.cast_ray`:
`none` when it has no `aabb` (the `hasattr` check), its AABB misses the
ray, or `t_near` exceeds `max_distance`; otherwise the record with the
hit point `origin + direction * t_near` and the approximate normal
`(point - entity.position)`, normalised when its norm is positive. -/
noncomputable def entityCand (origin dir : Vec3 ℝ) (maxDistance : ℝ) (e : RayEntity) :
    Option RaycastHit :=
  match e.aabb with
  | none => none
  | some box =>
    let r := box.intersectRay origin dir
    let tNear := r.2.1
    if r.1 && decide (tNear ≤ maxDistance) then
      let point := origin + tNear • dir
      let rawNormal := point - e.position
      let normal := if rawNormal.norm > 0 then (1 / rawNormal.norm) • rawNormal
        else rawNormal
      some ⟨true, tNear, some point, some normal, some e.id⟩
    else none

/-- One iteration of either loop of `Raycast.cast_ray`: the source guard
is `if hit and distance < closest_hit.distance and distance <=
max_distance`; the candidate function carries the `hit` test and the
`distance <= max_distance` test, and the comparison with the initial
infinite `closest_hit.distance` is the `!best.hit ||` disjunct (the source
invariant is `hit = False` iff `distance = inf`). -/
noncomputable def updBest {β : Type*} (cand : β → Option RaycastHit)
    (best : RaycastHit) (x : β) : RaycastHit :=
  match cand x with
  | none => best
  | some h => if !best.hit || h.distance < best.distance then h else best

/-- Embedding of `Raycast.cast_ray`: normalise the direction, fold the
wall loop, then the entity loop. -/
noncomputable def cast_ray (origin direction : Vec3 ℝ) (maxDistance : ℝ)
    (level : RayLevel) (entities : List RayEntity) : RaycastHit :=
  let dir := normalize direction
  let afterWalls :=
    level.walls.foldl (updBest (wallCand origin dir maxDistance)) RaycastHit.init
  entities.foldl (updBest (entityCand origin dir maxDistance)) afterWalls

/-- Embedding of `Raycast.line_of_sight`.  The source divides
`direction = end - start` by `distance = np.linalg.norm(direction)` with
no zero guard; the `start = end` input reaches that division with
`distance = 0` (numpy 0/0), embedded as the `none` branch. -/
noncomputable def line_of_sight (start end_ : Vec3 ℝ) (level : RayLevel)
    (entities : List RayEntity) : Option Bool :=
  let direction := end_ - start
  let distance := direction.norm
  if distance = 0 then none
  else
    let dir := (1 / distance) • direction
    let h := cast_ray start dir distance level entities
    some (!h.hit || decide (h.distance ≥ distance))

end Raycast

end Ray

/-! ### Helper lemmas -/

section Helpers

theorem Vec3.ext_comp {α : Type*} {a b : Vec3 α} (hx : a.x = b.x) (hy : a.y = b.y)
    (hz : a.z = b.z) : a = b := by
  cases a; cases b; cases hx; cases hy; cases hz; rfl

variable {α : Type*} [LinearOrderedField α]

theorem AABB.getCenter_translate (b : AABB α) (o : Vec3 α) :
    (b.translate o).getCenter = b.getCenter + o := by
  apply Vec3.ext_comp <;>
    simp [AABB.translate, AABB.getCenter, Vec3.add_def, Vec3.smul_def] <;> ring

theorem AABB.getSize_translate (b : AABB α) (o : Vec3 α) :
    (b.translate o).getSize = b.getSize := by
  apply Vec3.ext_comp <;>
    simp [AABB.translate, AABB.getSize, Vec3.add_def, Vec3.sub_def]

/-- `check_aabb_wall_collision` reads only the X and Z components of the
AABB's centre and size. -/
theorem check_eq_of_xz (a b : AABB ℝ) (w : Wall ℝ)
    (h1 : a.getCenter.x = b.getCenter.x) (h2 : a.getCenter.z = b.getCenter.z)
    (h3 : a.getSize.x = b.getSize.x) (h4 : a.getSize.z = b.getSize.z) :
    CollisionSystem.check_aabb_wall_collision a w =
      CollisionSystem.check_aabb_wall_collision b w := by
  simp only [CollisionSystem.check_aabb_wall_collision, h1, h2, h3, h4]

theorem physics_update_on_ground {α : Type*} [LinearOrderedField α]
    (p : PhysicsComponent α) (dt : α) : (p.update dt).on_ground = p.on_ground := rfl

end Helpers

/-! ### C4: PhysicsComponent.update -/

/-- C4: one `PhysicsComponent.update` subtracts gravity from the vertical
acceleration when `use_gravity` holds and the entity is airborne,
integrates `velocity += acceleration * dt`, resets the acceleration to
zero, and damps only the horizontal velocity components by `0.9` when
`on_ground`; the vertical velocity is untouched by the damping and the
acceleration is zero after every update. -/
theorem physics_update_steps {α : Type*} [LinearOrderedField α]
    (p : PhysicsComponent α) (dt : α) :
    (p.update dt).acceleration = 0 ∧
    (p.update dt).velocity.y =
      p.velocity.y + dt * (p.acceleration.y -
        (if p.use_gravity && !p.on_ground then ((GRAVITY_CONST : ℚ) : α) else 0)) ∧
    (p.update dt).velocity.x =
      (if p.on_ground then (9/10 : α) else 1) * (p.velocity.x + dt * p.acceleration.x) ∧
    (p.update dt).velocity.z =
      (if p.on_ground then (9/10 : α) else 1) * (p.velocity.z + dt * p.acceleration.z) ∧
    (p.update dt).on_ground = p.on_ground := by
  cases hug : p.use_gravity <;> cases hog : p.on_ground <;>
    simp [PhysicsComponent.update, hug, hog, Vec3.add_def, Vec3.smul_def] <;>
    ring_nf <;> simp [mul_comm]

/-! ### C9: check_aabb_wall_collision ignores Y -/

/-- C9: `check_aabb_wall_collision` depends only on the X and Z extents of
the AABB: translating the box vertically by any `dy` leaves the whole
result (`collides`, `penetration`, `normal`) unchanged. -/
theorem check_collision_y_invariant (aabb : AABB ℝ) (wall : Wall ℝ) (dy : ℝ) :
    CollisionSystem.check_aabb_wall_collision (aabb.translate ⟨0, dy, 0⟩) wall =
      CollisionSystem.check_aabb_wall_collision aabb wall := by
  apply check_eq_of_xz <;>
    simp [AABB.getCenter_translate, AABB.getSize_translate, Vec3.add_def]

/-! ### C8: BSP build / find_sector_at -/

/-- C8: building the BSP tree from an empty wall list leaves the root
empty and every `find_sector_at` query answers `none`; building from a
non-empty wall list produces a single leaf holding all the walls, tagged
with the first wall's sector, which `find_sector_at` returns at every
point. -/
theorem bsp_build_find_sector {α : Type*} [LinearOrderedField α] :
    (∀ x z : α, (BSPTree.build ([] : List (Wall α))).findSectorAt x z = none) ∧
    (∀ (w : Wall α) (ws : List (Wall α)),
      BSPTree.build (w :: ws) = ⟨some (BSPNode.leaf (w :: ws) (some w.sector))⟩ ∧
      ∀ x z : α, (BSPTree.build (w :: ws)).findSectorAt x z = some w.sector) := by
  refine ⟨fun x z => rfl, fun w ws => ⟨rfl, fun x z => rfl⟩⟩

/-! ### C10: line_of_sight precondition -/

/-- C10: `line_of_sight` divides the direction by the distance between the
endpoints with no zero guard, so the division's degenerate branch is
reached exactly when `start = end`; for `start ≠ end` the division is safe
and a boolean answer is produced. -/
theorem line_of_sight_defined_iff (s e : Vec3 ℝ) (lvl : RayLevel)
    (ents : List RayEntity) :
    Raycast.line_of_sight s e lvl ents = none ↔ s = e := by
  have hkey : (e - s).norm = 0 ↔ s = e := by
    constructor
    · intro h
      have hnn : (0:ℝ) ≤ (e - s).normSq := by
        simp only [Vec3.normSq, Vec3.sub_def]
        nlinarith [mul_self_nonneg (e.x - s.x), mul_self_nonneg (e.y - s.y),
          mul_self_nonneg (e.z - s.z)]
      have h0 : (e - s).normSq = 0 := by
        have := (Real.sqrt_eq_zero hnn).mp h
        exact this
      simp only [Vec3.normSq, Vec3.sub_def] at h0
      have hx : e.x - s.x = 0 := by
        nlinarith [mul_self_nonneg (e.x - s.x), mul_self_nonneg (e.y - s.y),
          mul_self_nonneg (e.z - s.z)]
      have hy : e.y - s.y = 0 := by
        nlinarith [mul_self_nonneg (e.x - s.x), mul_self_nonneg (e.y - s.y),
          mul_self_nonneg (e.z - s.z)]
      have hz : e.z - s.z = 0 := by
        nlinarith [mul_self_nonneg (e.x - s.x), mul_self_nonneg (e.y - s.y),
          mul_self_nonneg (e.z - s.z)]
      exact Vec3.ext_comp (by linarith) (by linarith) (by linarith)
    · rintro rfl
      have : (s - s).normSq = 0 := by
        simp [Vec3.normSq, Vec3.sub_def]
      simp [Vec3.norm, this]
  simp only [Raycast.line_of_sight]
  split_ifs with h
  · exact iff_of_true rfl (hkey.mp h)
  · exact iff_of_false (by simp) (fun hse => h (hkey.mpr hse))

/-! ### C2: AABB.intersect_ray -/

/-- C2 (amended): `intersect_ray` replaces each direction component whose
absolute value is below `1e-8` by the constant `1e-8` (positive,
regardless of the component's original sign) before dividing, and returns
`hit = false` with zero t-values exactly when `t_near > t_far` or
`t_far < 0`; otherwise it returns `hit = true` with the slab parameters,
which then satisfy `t_near ≤ t_far` (and `0 ≤ t_far`). -/
theorem intersect_ray_clamp_miss_amended {α : Type*} [LinearOrderedField α]
    (b : AABB α) (o d : Vec3 α) :
    (∀ c : α, |c| < 1/100000000 → AABB.clampDirComponent c = 1/100000000) ∧
    (AABB.intersectRay b o d = (false, 0, 0) ↔
      (AABB.slabInterval b o d).1 > (AABB.slabInterval b o d).2 ∨
        (AABB.slabInterval b o d).2 < 0) ∧
    ((AABB.intersectRay b o d).1 = true →
      AABB.intersectRay b o d =
        (true, (AABB.slabInterval b o d).1, (AABB.slabInterval b o d).2) ∧
      (AABB.slabInterval b o d).1 ≤ (AABB.slabInterval b o d).2 ∧
      0 ≤ (AABB.slabInterval b o d).2) := by
  refine ⟨fun c hc => by simp only [AABB.clampDirComponent]; rw [if_pos hc], ?_, ?_⟩
  · simp only [AABB.intersectRay]
    split_ifs with h
    · exact iff_of_true rfl h
    · refine iff_of_false (fun habs => ?_) h
      simpa using congrArg Prod.fst habs
  · simp only [AABB.intersectRay]
    split_ifs with h
    · intro habs; simp at habs
    · push_neg at h
      exact fun _ => ⟨rfl, h.1, h.2⟩

/-- C2 counterexample: the claimed sign-preserving clamp disagrees with
the source.  For the direction `[1, 0, -5e-9]` the source clamps the z
component to `+1e-8` (flipping its sign), and on the box
`[100,0,0] × [200,1,1]` from origin `[0, 1/2, -1e-6]` the source reports
a hit `(t_near, t_far) = (100, 200)` while the sign-preserving variant
reports a miss. -/
theorem intersect_ray_sign_cex :
    AABB.clampDirComponent (-(1/200000000) : ℚ) = 1/100000000 ∧
    AABB.signedClampSpec (-(1/200000000) : ℚ) = -(1/100000000) ∧
    AABB.intersectRay (⟨⟨100, 0, 0⟩, ⟨200, 1, 1⟩⟩ : AABB ℚ)
      ⟨0, 1/2, -(1/1000000)⟩ ⟨1, 0, -(1/200000000)⟩ = (true, 100, 200) ∧
    AABB.intersectRaySigned (⟨⟨100, 0, 0⟩, ⟨200, 1, 1⟩⟩ : AABB ℚ)
      ⟨0, 1/2, -(1/1000000)⟩ ⟨1, 0, -(1/200000000)⟩ = (false, 0, 0) := by
  refine ⟨?_, ?_, ?_, ?_⟩
  · rw [AABB.clampDirComponent, if_pos]
    rw [abs_neg, abs_of_pos] <;> norm_num
  · rw [AABB.signedClampSpec, if_pos, if_pos (by norm_num)]
    rw [abs_neg, abs_of_pos] <;> norm_num
  · norm_num [AABB.intersectRay, AABB.slabInterval, AABB.clampDirComponent,
      abs_neg, abs_zero, abs_one, abs_of_pos, min_def, max_def]
  · norm_num [AABB.intersectRaySigned, AABB.signedClampSpec,
      abs_neg, abs_zero, abs_one, abs_of_pos, min_def, max_def]

/-- C2 witness: the amended theorem applied at the concrete box, origin
and direction of the counterexample, discharging the hit hypothesis and
the small-component hypothesis there. -/
theorem intersect_ray_clamp_miss_witness :
    AABB.clampDirComponent (-(1/200000000) : ℚ) = 1/100000000 ∧
    (AABB.slabInterval (⟨⟨100, 0, 0⟩, ⟨200, 1, 1⟩⟩ : AABB ℚ)
        ⟨0, 1/2, -(1/1000000)⟩ ⟨1, 0, -(1/200000000)⟩).1 ≤
      (AABB.slabInterval (⟨⟨100, 0, 0⟩, ⟨200, 1, 1⟩⟩ : AABB ℚ)
        ⟨0, 1/2, -(1/1000000)⟩ ⟨1, 0, -(1/200000000)⟩).2 :=
  ⟨(intersect_ray_clamp_miss_amended (⟨⟨100, 0, 0⟩, ⟨200, 1, 1⟩⟩ : AABB ℚ)
      ⟨0, 1/2, -(1/1000000)⟩ ⟨1, 0, -(1/200000000)⟩).1 _
      (by rw [abs_neg, abs_of_pos] <;> norm_num),
   ((intersect_ray_clamp_miss_amended (⟨⟨100, 0, 0⟩, ⟨200, 1, 1⟩⟩ : AABB ℚ)
      ⟨0, 1/2, -(1/1000000)⟩ ⟨1, 0, -(1/200000000)⟩).2.2
      (by norm_num [AABB.intersectRay, AABB.slabInterval, AABB.clampDirComponent,
        abs_neg, abs_zero, abs_one, abs_of_pos, min_def, max_def])).2.1⟩

/-! ### C6: on_ground recomputation policy -/

/-- C6 (amended): after a physics step, when the spatial index finds a
sector at the entity's new (x, z) the `on_ground` flag is recomputed (it
equals `new_y ≤ floor_height`); when the index finds no sector the entity
is left entirely unclamped — position integrated, velocity as the
component update left it — and `on_ground` keeps its previous (possibly
stale) value, rather than being recomputed. -/
theorem step_no_sector_policy {α : Type*} [LinearOrderedField α]
    (level : PhysLevel α) (dt : α) (e : PhysEntity α) :
    (match level.bsp_tree.findSectorAt
        (e.position + (e.physics.update dt).get_displacement dt).x
        (e.position + (e.physics.update dt).get_displacement dt).z with
     | none =>
        PhysicsSystem.stepEntity level dt e =
          ⟨e.position + (e.physics.update dt).get_displacement dt,
           e.physics.update dt, e.aabb⟩ ∧
        (PhysicsSystem.stepEntity level dt e).physics.on_ground = e.physics.on_ground
     | some sector =>
        (PhysicsSystem.stepEntity level dt e).physics.on_ground =
          decide ((e.position + (e.physics.update dt).get_displacement dt).y
            ≤ sector.floor_height)) := by
  obtain ⟨pos, ph0, ab⟩ := e
  cases hs : level.bsp_tree.findSectorAt
      (pos + (ph0.update dt).get_displacement dt).x
      (pos + (ph0.update dt).get_displacement dt).z with
  | none =>
    refine ⟨?_, ?_⟩
    · simp [PhysicsSystem.stepEntity, PhysicsSystem.checkGroundCollision, hs]
    · simp [PhysicsSystem.stepEntity, PhysicsSystem.checkGroundCollision, hs,
        physics_update_on_ground]
  | some sector =>
    simp only [PhysicsSystem.stepEntity, PhysicsSystem.checkGroundCollision, hs]
    by_cases hy : (pos + (ph0.update dt).get_displacement dt).y ≤ sector.floor_height
    · cases ab with
      | none => simp [hy]
      | some box =>
        simp [hy]
        split_ifs <;> rfl
    · cases ab with
      | none => simp [hy]
      | some box =>
        simp [hy]
        split_ifs <;> rfl

/-- C6 counterexample: an entity whose `on_ground` flag is `true` over a
level with an empty BSP tree (so the lookup finds no sector) still has
`on_ground = true` after the step — the flag kept its stale prior value
instead of reflecting the current step's lookup. -/
theorem step_stale_on_ground_cex :
    (PhysicsSystem.stepEntity (⟨BSPTree.build []⟩ : PhysLevel ℚ) (1/10)
        ⟨⟨0, 5, 0⟩, ⟨⟨0, 0, 0⟩, ⟨0, 0, 0⟩, 1, true, true⟩, none⟩).physics.on_ground
      = true ∧
    (⟨BSPTree.build []⟩ : PhysLevel ℚ).bsp_tree.findSectorAt (0 : ℚ) 0 = none := by
  constructor
  · rfl
  · rfl

/-! ### C5: ground clamp after a physics step -/

/-- C5 (amended): for an entity whose post-integration (x, z) lies in a
sector found by the spatial index, if its post-integration Y is at or
below the sector's `floor_height` then the step zeroes the vertical
velocity, sets `on_ground = true`, and sets Y to `floor_height` — unless
the entity carries an AABB whose top `floor_height + height` reaches the
sector's ceiling, in which case the subsequent ceiling clamp leaves
`Y = ceiling_height - height` instead; if the post-integration Y is above
the floor, `on_ground` is set to `false`. -/
theorem step_ground_clamp_amended {α : Type*} [LinearOrderedField α]
    (level : PhysLevel α) (dt : α) (e : PhysEntity α) (sector : Sector α)
    (hs : level.bsp_tree.findSectorAt
        (e.position + (e.physics.update dt).get_displacement dt).x
        (e.position + (e.physics.update dt).get_displacement dt).z = some sector) :
    ((e.position + (e.physics.update dt).get_displacement dt).y ≤ sector.floor_height →
      (PhysicsSystem.stepEntity level dt e).physics.on_ground = true ∧
      (PhysicsSystem.stepEntity level dt e).physics.velocity.y = 0 ∧
      (e.aabb = none →
        (PhysicsSystem.stepEntity level dt e).position.y = sector.floor_height) ∧
      (∀ box, e.aabb = some box →
        (sector.floor_height + box.getSize.y ≥ sector.ceiling_height →
          (PhysicsSystem.stepEntity level dt e).position.y =
            sector.ceiling_height - box.getSize.y) ∧
        (sector.floor_height + box.getSize.y < sector.ceiling_height →
          (PhysicsSystem.stepEntity level dt e).position.y = sector.floor_height))) ∧
    (sector.floor_height < (e.position + (e.physics.update dt).get_displacement dt).y →
      (PhysicsSystem.stepEntity level dt e).physics.on_ground = false) := by
  obtain ⟨pos, ph0, ab⟩ := e
  simp only [PhysicsSystem.stepEntity, PhysicsSystem.checkGroundCollision, hs]
  constructor
  · intro hy
    cases ab with
    | none => simp [hy]
    | some box =>
      by_cases hc : sector.ceiling_height ≤ sector.floor_height + (box.max - box.min).y
      · refine ⟨?_, ?_, ?_, ?_⟩
        · simp [hy, AABB.getSize, hc]
        · simp [hy, AABB.getSize, hc]
        · intro h; cases h
        · rintro box' ⟨rfl⟩
          refine ⟨fun _ => ?_, fun hlt => ?_⟩
          · simp [hy, AABB.getSize, hc]
          · exact absurd hc (not_le.mpr (by simpa [AABB.getSize] using hlt))
      · refine ⟨?_, ?_, ?_, ?_⟩
        · simp [hy, AABB.getSize, hc]
        · simp [hy, AABB.getSize, hc]
        · intro h; cases h
        · rintro box' ⟨rfl⟩
          refine ⟨fun hge => ?_, fun _ => ?_⟩
          · exact absurd (by simpa [AABB.getSize, ge_iff_le] using hge) hc
          · simp [hy, AABB.getSize, hc]
  · intro hy
    have hy' : ¬ (pos + (ph0.update dt).get_displacement dt).y ≤ sector.floor_height :=
      not_le.mpr hy
    cases ab with
    | none => simp [hy']
    | some box =>
      simp [hy']
      split_ifs <;> rfl

/-- C5 witness: the ground-clamp scenario — an entity (no AABB) at
`y = -1` with zero velocity, gravity on, over a one-wall level whose
sector has `floor_height = 0` and `ceiling_height = 5/2`; after one
`dt = 1/10` step it sits at `y = 0`, with zero vertical velocity, on the
ground.  Proved by applying the amended theorem at this input. -/
theorem step_ground_clamp_witness :
    (PhysicsSystem.stepEntity
        (⟨BSPTree.build [⟨⟨0, 0, -1⟩, ⟨0, 0, 1⟩, ⟨0, 0, 5/2⟩, ⟨1, 0, 0⟩⟩]⟩ : PhysLevel ℚ)
        (1/10)
        ⟨⟨2, -1, 1/2⟩, ⟨⟨0, 0, 0⟩, ⟨0, 0, 0⟩, 1, true, false⟩, none⟩).position.y = 0 ∧
    (PhysicsSystem.stepEntity
        (⟨BSPTree.build [⟨⟨0, 0, -1⟩, ⟨0, 0, 1⟩, ⟨0, 0, 5/2⟩, ⟨1, 0, 0⟩⟩]⟩ : PhysLevel ℚ)
        (1/10)
        ⟨⟨2, -1, 1/2⟩, ⟨⟨0, 0, 0⟩, ⟨0, 0, 0⟩, 1, true, false⟩,
         none⟩).physics.velocity.y = 0 ∧
    (PhysicsSystem.stepEntity
        (⟨BSPTree.build [⟨⟨0, 0, -1⟩, ⟨0, 0, 1⟩, ⟨0, 0, 5/2⟩, ⟨1, 0, 0⟩⟩]⟩ : PhysLevel ℚ)
        (1/10)
        ⟨⟨2, -1, 1/2⟩, ⟨⟨0, 0, 0⟩, ⟨0, 0, 0⟩, 1, true, false⟩,
         none⟩).physics.on_ground = true := by
  have h := (step_ground_clamp_amended
      (⟨BSPTree.build [⟨⟨0, 0, -1⟩, ⟨0, 0, 1⟩, ⟨0, 0, 5/2⟩, ⟨1, 0, 0⟩⟩]⟩ : PhysLevel ℚ)
      (1/10)
      ⟨⟨2, -1, 1/2⟩, ⟨⟨0, 0, 0⟩, ⟨0, 0, 0⟩, 1, true, false⟩, none⟩
      ⟨0, 0, 5/2⟩ rfl).1
    (by norm_num [PhysicsComponent.update, PhysicsComponent.get_displacement,
      Vec3.add_def, Vec3.smul_def, GRAVITY_CONST, Rat.cast_id])
  exact ⟨h.2.2.1 rfl, h.2.1, h.1⟩

/-- C5 counterexample: the same scenario but with an entity AABB of height
3 in a sector of height `5/2`: the sector is found, the post-integration Y
is at or below the floor (so the claim demands a final Y equal to
`floor_height = 0`), yet the step ends with `Y = -1/2` because the ceiling
clamp runs after the floor clamp. -/
theorem step_ground_clamp_cex :
    (⟨BSPTree.build [⟨⟨0, 0, -1⟩, ⟨0, 0, 1⟩, ⟨0, 0, 5/2⟩, ⟨1, 0, 0⟩⟩]⟩ :
        PhysLevel ℚ).bsp_tree.findSectorAt 2 (1/2) = some ⟨0, 0, 5/2⟩ ∧
    ((⟨2, -1, 1/2⟩ : Vec3 ℚ) +
        ((⟨⟨0, 0, 0⟩, ⟨0, 0, 0⟩, 1, true, false⟩ : PhysicsComponent ℚ).update
          (1/10)).get_displacement (1/10)).y ≤ 0 ∧
    (PhysicsSystem.stepEntity
        (⟨BSPTree.build [⟨⟨0, 0, -1⟩, ⟨0, 0, 1⟩, ⟨0, 0, 5/2⟩, ⟨1, 0, 0⟩⟩]⟩ : PhysLevel ℚ)
        (1/10)
        ⟨⟨2, -1, 1/2⟩, ⟨⟨0, 0, 0⟩, ⟨0, 0, 0⟩, 1, true, false⟩,
         some ⟨⟨-(1/2), 0, -(1/2)⟩, ⟨1/2, 3, 1/2⟩⟩⟩).position.y = -(1/2) := by
  refine ⟨rfl, ?_, ?_⟩
  · norm_num [PhysicsComponent.update, PhysicsComponent.get_displacement,
      Vec3.add_def, Vec3.smul_def, GRAVITY_CONST, Rat.cast_id]
  · have hsec : ∀ x z : ℚ,
        (⟨BSPTree.build [⟨⟨0, 0, -1⟩, ⟨0, 0, 1⟩, ⟨0, 0, 5/2⟩, ⟨1, 0, 0⟩⟩]⟩ :
          PhysLevel ℚ).bsp_tree.findSectorAt x z = some ⟨0, 0, 5/2⟩ := fun x z => rfl
    norm_num [PhysicsSystem.stepEntity, PhysicsSystem.checkGroundCollision, hsec,
      PhysicsComponent.update, PhysicsComponent.get_displacement, AABB.getSize,
      Vec3.add_def, Vec3.sub_def, Vec3.smul_def, GRAVITY_CONST, Rat.cast_id]

/-! ### C1: cast_ray nearest-hit selection -/

theorem Raycast.foldl_updBest_hit_le {β : Type*} (cand : β → Option RaycastHit)
    (hc : ∀ x h, cand x = some h → h.hit = true) :
    ∀ (l : List β) (best : RaycastHit), best.hit = true →
      (l.foldl (Raycast.updBest cand) best).hit = true ∧
      (l.foldl (Raycast.updBest cand) best).distance ≤ best.distance := by
  intro l
  induction l with
  | nil => exact fun best hb => ⟨hb, le_refl _⟩
  | cons a t ih =>
    intro best hb
    rw [List.foldl_cons]
    cases hca : cand a with
    | none =>
      have hu : Raycast.updBest cand best a = best := by simp [Raycast.updBest, hca]
      rw [hu]; exact ih best hb
    | some h =>
      by_cases hlt : h.distance < best.distance
      · have hu : Raycast.updBest cand best a = h := by
          simp [Raycast.updBest, hca, hlt]
        rw [hu]
        obtain ⟨h1, h2⟩ := ih h (hc a h hca)
        exact ⟨h1, le_trans h2 (le_of_lt hlt)⟩
      · have hu : Raycast.updBest cand best a = best := by
          simp [Raycast.updBest, hca, hb, hlt]
        rw [hu]; exact ih best hb

theorem Raycast.foldl_updBest_le {β : Type*} (cand : β → Option RaycastHit)
    (hc : ∀ x h, cand x = some h → h.hit = true) :
    ∀ (l : List β) (best : RaycastHit) (x : β) (h : RaycastHit),
      x ∈ l → cand x = some h →
      (l.foldl (Raycast.updBest cand) best).hit = true ∧
      (l.foldl (Raycast.updBest cand) best).distance ≤ h.distance := by
  intro l
  induction l with
  | nil => intro best x h hx; exact absurd hx (List.not_mem_nil x)
  | cons a t ih =>
    intro best x h hx hcx
    rw [List.foldl_cons]
    rcases List.mem_cons.mp hx with rfl | hxt
    · by_cases hcond : (!best.hit || decide (h.distance < best.distance)) = true
      · have hu : Raycast.updBest cand best x = h := by
          simp only [Raycast.updBest, hcx]; rw [if_pos hcond]
        rw [hu]
        exact Raycast.foldl_updBest_hit_le cand hc t h (hc x h hcx)
      · simp only [Bool.or_eq_true, Bool.not_eq_true', decide_eq_true_eq, not_or] at hcond
        obtain ⟨hb, hnlt⟩ := hcond
        have hb' : best.hit = true := by
          cases hhit : best.hit
          · exact absurd hhit hb
          · rfl
        have hu : Raycast.updBest cand best x = best := by
          simp [Raycast.updBest, hcx, hb', hnlt]
        rw [hu]
        obtain ⟨h1, h2⟩ := Raycast.foldl_updBest_hit_le cand hc t best hb'
        exact ⟨h1, le_trans h2 (not_lt.mp hnlt)⟩
    · exact ih (Raycast.updBest cand best a) x h hxt hcx

theorem Raycast.foldl_updBest_achieved {β : Type*} (cand : β → Option RaycastHit) :
    ∀ (l : List β) (best : RaycastHit),
      l.foldl (Raycast.updBest cand) best = best ∨
      ∃ x ∈ l, ∃ h, cand x = some h ∧ l.foldl (Raycast.updBest cand) best = h := by
  intro l
  induction l with
  | nil => exact fun best => Or.inl rfl
  | cons a t ih =>
    intro best
    rw [List.foldl_cons]
    cases hca : cand a with
    | none =>
      have hu : Raycast.updBest cand best a = best := by simp [Raycast.updBest, hca]
      rw [hu]
      rcases ih best with h1 | ⟨x, hx, h', hcx, hfx⟩
      · exact Or.inl h1
      · exact Or.inr ⟨x, List.mem_cons_of_mem a hx, h', hcx, hfx⟩
    | some h =>
      by_cases hcond : (!best.hit || decide (h.distance < best.distance)) = true
      · have hu : Raycast.updBest cand best a = h := by
          simp only [Raycast.updBest, hca]; rw [if_pos hcond]
        rw [hu]
        rcases ih h with h1 | ⟨x, hx, h', hcx, hfx⟩
        · exact Or.inr ⟨a, List.mem_cons_self a t, h, hca, h1⟩
        · exact Or.inr ⟨x, List.mem_cons_of_mem a hx, h', hcx, hfx⟩
      · have hu : Raycast.updBest cand best a = best := by
          simp only [Raycast.updBest, hca]; rw [if_neg hcond]
        rw [hu]
        rcases ih best with h1 | ⟨x, hx, h', hcx, hfx⟩
        · exact Or.inl h1
        · exact Or.inr ⟨x, List.mem_cons_of_mem a hx, h', hcx, hfx⟩

theorem Raycast.foldl_updBest_stay {β : Type*} (cand : β → Option RaycastHit) :
    ∀ (l : List β) (best : RaycastHit), best.hit = true →
      (∀ x ∈ l, ∀ h, cand x = some h → ¬ h.distance < best.distance) →
      l.foldl (Raycast.updBest cand) best = best := by
  intro l
  induction l with
  | nil => exact fun best _ _ => rfl
  | cons a t ih =>
    intro best hb hno
    rw [List.foldl_cons]
    cases hca : cand a with
    | none =>
      have hu : Raycast.updBest cand best a = best := by simp [Raycast.updBest, hca]
      rw [hu]
      exact ih best hb (fun x hx => hno x (List.mem_cons_of_mem a hx))
    | some h =>
      have hu : Raycast.updBest cand best a = best := by
        simp [Raycast.updBest, hca, hb, hno a (List.mem_cons_self a t) h hca]
      rw [hu]
      exact ih best hb (fun x hx => hno x (List.mem_cons_of_mem a hx))

theorem Raycast.foldl_updBest_select {β : Type*} (cand : β → Option RaycastHit)
    (hc : ∀ x h, cand x = some h → h.hit = true) :
    ∀ (l : List β) (best : RaycastHit) (w : β) (hw : RaycastHit),
      w ∈ l → cand w = some hw →
      (∀ x ∈ l, ∀ h, cand x = some h → h = hw ∨ hw.distance < h.distance) →
      (best.hit = false ∨ hw.distance < best.distance) →
      l.foldl (Raycast.updBest cand) best = hw := by
  intro l
  induction l with
  | nil => intro best w hw hwmem; exact absurd hwmem (List.not_mem_nil w)
  | cons a t ih =>
    intro best w hw hwmem hcw hmin hbeat
    rw [List.foldl_cons]
    cases hca : cand a with
    | none =>
      have hu : Raycast.updBest cand best a = best := by simp [Raycast.updBest, hca]
      rw [hu]
      have hwt : w ∈ t := by
        rcases List.mem_cons.mp hwmem with rfl | hmem
        · rw [hca] at hcw; cases hcw
        · exact hmem
      exact ih best w hw hwt hcw
        (fun x hx => hmin x (List.mem_cons_of_mem a hx)) hbeat
    | some ha =>
      rcases hmin a (List.mem_cons_self a t) ha hca with rfl | hlt
      · have hcond : (!best.hit || decide (ha.distance < best.distance)) = true := by
          rcases hbeat with hb | hb
          · simp [hb]
          · simp [hb]
        have hu : Raycast.updBest cand best a = ha := by
          simp only [Raycast.updBest, hca]; rw [if_pos hcond]
        rw [hu]
        apply Raycast.foldl_updBest_stay cand t ha (hc a ha hca)
        intro x hx h hcx
        rcases hmin x (List.mem_cons_of_mem a hx) h hcx with rfl | hlt
        · exact lt_irrefl _
        · exact not_lt.mpr (le_of_lt hlt)
      · have hwt : w ∈ t := by
          rcases List.mem_cons.mp hwmem with rfl | hmem
          · rw [hca] at hcw
            have heq : ha = hw := Option.some.inj hcw
            rw [heq] at hlt
            exact absurd hlt (lt_irrefl _)
          · exact hmem
        by_cases hcond : (!best.hit || decide (ha.distance < best.distance)) = true
        · have hu : Raycast.updBest cand best a = ha := by
            simp only [Raycast.updBest, hca]; rw [if_pos hcond]
          rw [hu]
          exact ih ha w hw hwt hcw
            (fun x hx => hmin x (List.mem_cons_of_mem a hx)) (Or.inr hlt)
        · have hu : Raycast.updBest cand best a = best := by
            simp only [Raycast.updBest, hca]; rw [if_neg hcond]
          rw [hu]
          exact ih best w hw hwt hcw
            (fun x hx => hmin x (List.mem_cons_of_mem a hx)) hbeat

theorem Raycast.exists_min_hit :
    ∀ (l : List RaycastHit), l ≠ [] →
      ∃ m ∈ l, ∀ h ∈ l, m.distance ≤ h.distance := by
  intro l
  induction l with
  | nil => intro h; exact absurd rfl h
  | cons a t ih =>
    intro _
    cases t with
    | nil =>
      refine ⟨a, List.mem_cons_self a [], ?_⟩
      intro h hh
      rcases List.mem_cons.mp hh with rfl | hh
      · exact le_refl _
      · exact absurd hh (List.not_mem_nil h)
    | cons b t2 =>
      obtain ⟨m, hm, hmin⟩ := ih (by simp)
      rcases le_total a.distance m.distance with hle | hle
      · refine ⟨a, List.mem_cons_self a _, ?_⟩
        intro h hh
        rcases List.mem_cons.mp hh with rfl | hh
        · exact le_refl _
        · exact le_trans hle (hmin h hh)
      · refine ⟨m, List.mem_cons_of_mem a hm, ?_⟩
        intro h hh
        rcases List.mem_cons.mp hh with rfl | hh
        · exact hle
        · exact hmin h hh

theorem Raycast.wallCand_hit (origin dir : Vec3 ℝ) (m : ℝ) (w : Wall ℝ)
    (h : RaycastHit) (hc : Raycast.wallCand origin dir m w = some h) : h.hit = true := by
  unfold Raycast.wallCand at hc
  cases hw : w.intersectsRay origin dir with
  | none =>
    simp only [hw] at hc
    exact Option.noConfusion hc
  | some p =>
    obtain ⟨u, pt⟩ := p
    simp only [hw] at hc
    by_cases hu : u ≤ m
    · rw [if_pos hu] at hc
      rw [← Option.some.inj hc]
    · rw [if_neg hu] at hc; cases hc

theorem Raycast.entityCand_hit (origin dir : Vec3 ℝ) (m : ℝ) (e : RayEntity)
    (h : RaycastHit) (hc : Raycast.entityCand origin dir m e = some h) : h.hit = true := by
  unfold Raycast.entityCand at hc
  cases hb : e.aabb with
  | none =>
    simp only [hb] at hc
    exact Option.noConfusion hc
  | some box =>
    simp only [hb] at hc
    by_cases hcond : ((box.intersectRay origin dir).1 &&
        decide ((box.intersectRay origin dir).2.1 ≤ m)) = true
    · rw [if_pos hcond] at hc
      rw [← Option.some.inj hc]
    · rw [if_neg hcond] at hc; cases hc

theorem Raycast.foldl_updBest_none {β : Type*} (cand : β → Option RaycastHit) :
    ∀ (l : List β) (best : RaycastHit), (∀ x ∈ l, cand x = none) →
      l.foldl (Raycast.updBest cand) best = best := by
  intro l
  induction l with
  | nil => exact fun best _ => rfl
  | cons a t ih =>
    intro best hall
    rw [List.foldl_cons]
    have hu : Raycast.updBest cand best a = best := by
      simp [Raycast.updBest, hall a (List.mem_cons_self a t)]
    rw [hu]
    exact ih best (fun x hx => hall x (List.mem_cons_of_mem a hx))

/-- C1 (amended): `cast_ray` returns the accepted candidate with the
smallest reported distance.  A wall is an accepted candidate when
`wall.intersects_ray` reports a hit at a distance (which is always ≥ 0
but may be 0) not exceeding `max_distance`; an entity is an accepted
candidate when its AABB slab test reports a hit whose `t_near` (which may
be negative when the origin is inside the box) does not exceed
`max_distance`.  The returned hit lower-bounds every accepted candidate's
distance, is itself some accepted candidate's record when anything was
hit, and — when distinct walls report distinct distances — the result on
a wall-only cast is invariant under every permutation of the level's wall
list. -/
theorem cast_ray_nearest_amended (origin direction : Vec3 ℝ) (maxDistance : ℝ)
    (level : RayLevel) (entities : List RayEntity) :
    (∀ w ∈ level.walls, ∀ h,
      Raycast.wallCand origin (Raycast.normalize direction) maxDistance w = some h →
      (Raycast.cast_ray origin direction maxDistance level entities).hit = true ∧
      (Raycast.cast_ray origin direction maxDistance level entities).distance
        ≤ h.distance) ∧
    (∀ e ∈ entities, ∀ h,
      Raycast.entityCand origin (Raycast.normalize direction) maxDistance e = some h →
      (Raycast.cast_ray origin direction maxDistance level entities).hit = true ∧
      (Raycast.cast_ray origin direction maxDistance level entities).distance
        ≤ h.distance) ∧
    ((Raycast.cast_ray origin direction maxDistance level entities).hit = true →
      (∃ w ∈ level.walls, ∃ h,
        Raycast.wallCand origin (Raycast.normalize direction) maxDistance w = some h ∧
        Raycast.cast_ray origin direction maxDistance level entities = h) ∨
      (∃ e ∈ entities, ∃ h,
        Raycast.entityCand origin (Raycast.normalize direction) maxDistance e = some h ∧
        Raycast.cast_ray origin direction maxDistance level entities = h)) ∧
    (∀ level' : RayLevel, level.walls.Perm level'.walls →
      (∀ w ∈ level.walls, ∀ w' ∈ level.walls, ∀ h h',
        Raycast.wallCand origin (Raycast.normalize direction) maxDistance w = some h →
        Raycast.wallCand origin (Raycast.normalize direction) maxDistance w' = some h' →
        h.distance = h'.distance → h = h') →
      Raycast.cast_ray origin direction maxDistance level [] =
        Raycast.cast_ray origin direction maxDistance level' []) := by
  have hcr : ∀ (lvl : RayLevel) (ents : List RayEntity),
      Raycast.cast_ray origin direction maxDistance lvl ents =
        ents.foldl
          (Raycast.updBest
            (Raycast.entityCand origin (Raycast.normalize direction) maxDistance))
          (lvl.walls.foldl
            (Raycast.updBest
              (Raycast.wallCand origin (Raycast.normalize direction) maxDistance))
            RaycastHit.init) := fun _ _ => rfl
  refine ⟨?_, ?_, ?_, ?_⟩
  · intro w hw h hch
    rw [hcr]
    obtain ⟨h1, h2⟩ := Raycast.foldl_updBest_le _
      (Raycast.wallCand_hit origin _ maxDistance) level.walls RaycastHit.init w h hw hch
    obtain ⟨h3, h4⟩ := Raycast.foldl_updBest_hit_le _
      (Raycast.entityCand_hit origin _ maxDistance) entities _ h1
    exact ⟨h3, le_trans h4 h2⟩
  · intro e he h hch
    rw [hcr]
    exact Raycast.foldl_updBest_le _
      (Raycast.entityCand_hit origin _ maxDistance) entities _ e h he hch
  · intro hhit
    rw [hcr] at hhit ⊢
    rcases Raycast.foldl_updBest_achieved
        (Raycast.entityCand origin (Raycast.normalize direction) maxDistance) entities _
      with hsame | ⟨e, he, h, hch, hfe⟩
    · rw [hsame] at hhit ⊢
      rcases Raycast.foldl_updBest_achieved
          (Raycast.wallCand origin (Raycast.normalize direction) maxDistance)
          level.walls RaycastHit.init
        with hs2 | ⟨w, hwm, h, hch, hfw⟩
      · rw [hs2] at hhit
        exact absurd hhit (by simp [RaycastHit.init])
      · exact Or.inl ⟨w, hwm, h, hch, hfw⟩
    · exact Or.inr ⟨e, he, h, hch, hfe⟩
  · intro level' hperm hinj
    rw [hcr, hcr]
    simp only [List.foldl_nil]
    by_cases hex : ∃ w ∈ level.walls, ∃ h,
        Raycast.wallCand origin (Raycast.normalize direction) maxDistance w = some h
    · obtain ⟨w0, hw0, h0, hch0⟩ := hex
      have hne : level.walls.filterMap
          (Raycast.wallCand origin (Raycast.normalize direction) maxDistance) ≠ [] := by
        intro hnil
        have hmem : h0 ∈ level.walls.filterMap
            (Raycast.wallCand origin (Raycast.normalize direction) maxDistance) :=
          List.mem_filterMap.mpr ⟨w0, hw0, hch0⟩
        rw [hnil] at hmem
        exact absurd hmem (List.not_mem_nil h0)
      obtain ⟨hm, hmmem, hmmin⟩ := Raycast.exists_min_hit _ hne
      obtain ⟨wm, hwm, hcwm⟩ := List.mem_filterMap.mp hmmem
      have hminsel : ∀ x ∈ level.walls, ∀ h,
          Raycast.wallCand origin (Raycast.normalize direction) maxDistance x = some h →
          h = hm ∨ hm.distance < h.distance := by
        intro x hx h hcx
        have hhin : h ∈ level.walls.filterMap
            (Raycast.wallCand origin (Raycast.normalize direction) maxDistance) :=
          List.mem_filterMap.mpr ⟨x, hx, hcx⟩
        rcases eq_or_lt_of_le (hmmin h hhin) with heq | hlt
        · exact Or.inl (hinj x hx wm hwm h hm hcx hcwm heq.symm)
        · exact Or.inr hlt
      have h1 := Raycast.foldl_updBest_select _
        (Raycast.wallCand_hit origin _ maxDistance) level.walls RaycastHit.init wm hm
        hwm hcwm hminsel (Or.inl rfl)
      have h2 := Raycast.foldl_updBest_select _
        (Raycast.wallCand_hit origin _ maxDistance) level'.walls RaycastHit.init wm hm
        (hperm.mem_iff.mp hwm) hcwm
        (fun x hx => hminsel x (hperm.mem_iff.mpr hx)) (Or.inl rfl)
      rw [h1, h2]
    · push_neg at hex
      have hnone : ∀ w ∈ level.walls,
          Raycast.wallCand origin (Raycast.normalize direction) maxDistance w = none := by
        intro w hw
        cases hcw : Raycast.wallCand origin (Raycast.normalize direction) maxDistance w with
        | none => rfl
        | some h => exact absurd hcw (hex w hw h)
      rw [Raycast.foldl_updBest_none _ level.walls RaycastHit.init hnone,
          Raycast.foldl_updBest_none _ level'.walls RaycastHit.init
            (fun x hx => hnone x (hperm.mem_iff.mpr hx))]

theorem Raycast.normalize_unitX : Raycast.normalize ⟨1, 0, 0⟩ = (⟨1, 0, 0⟩ : Vec3 ℝ) := by
  unfold Raycast.normalize Vec3.norm
  norm_num [Vec3.normSq, Real.sqrt_one, Vec3.smul_def]

theorem Raycast.intersectsRay_wallA :
    Wall.intersectsRay (⟨⟨0, 0, -1⟩, ⟨0, 0, 1⟩, ⟨0, 0, 5/2⟩, ⟨1, 0, 0⟩⟩ : Wall ℝ)
      ⟨0, 0, 0⟩ ⟨1, 0, 0⟩ = some (0, ⟨0, 0, 0⟩) := by
  norm_num [Wall.intersectsRay, Vec3.add_def, Vec3.smul_def, abs_two]

theorem Raycast.intersectsRay_wallB5 :
    Wall.intersectsRay (⟨⟨-5, 0, -1⟩, ⟨-5, 0, 1⟩, ⟨0, 0, 5/2⟩, ⟨1, 0, 0⟩⟩ : Wall ℝ)
      ⟨0, 0, 0⟩ ⟨1, 0, 0⟩ = some (5, ⟨5, 0, 0⟩) := by
  norm_num [Wall.intersectsRay, Vec3.add_def, Vec3.smul_def, abs_two]

theorem Raycast.intersectsRay_wallB10 :
    Wall.intersectsRay (⟨⟨-10, 0, -1⟩, ⟨-10, 0, 1⟩, ⟨0, 0, 5/2⟩, ⟨1, 0, 0⟩⟩ : Wall ℝ)
      ⟨0, 0, 0⟩ ⟨1, 0, 0⟩ = some (10, ⟨10, 0, 0⟩) := by
  norm_num [Wall.intersectsRay, Vec3.add_def, Vec3.smul_def, abs_two]

theorem Raycast.wallCand_wallA :
    Raycast.wallCand ⟨0, 0, 0⟩ (Raycast.normalize ⟨1, 0, 0⟩) 100
      (⟨⟨0, 0, -1⟩, ⟨0, 0, 1⟩, ⟨0, 0, 5/2⟩, ⟨1, 0, 0⟩⟩ : Wall ℝ) =
      some ⟨true, 0, some ⟨0, 0, 0⟩, some ⟨1, 0, 0⟩, none⟩ := by
  unfold Raycast.wallCand
  rw [Raycast.normalize_unitX]
  simp only [Raycast.intersectsRay_wallA]
  norm_num

theorem Raycast.wallCand_wallB5 :
    Raycast.wallCand ⟨0, 0, 0⟩ (Raycast.normalize ⟨1, 0, 0⟩) 100
      (⟨⟨-5, 0, -1⟩, ⟨-5, 0, 1⟩, ⟨0, 0, 5/2⟩, ⟨1, 0, 0⟩⟩ : Wall ℝ) =
      some ⟨true, 5, some ⟨5, 0, 0⟩, some ⟨1, 0, 0⟩, none⟩ := by
  unfold Raycast.wallCand
  rw [Raycast.normalize_unitX]
  simp only [Raycast.intersectsRay_wallB5]
  norm_num

theorem Raycast.wallCand_wallB10 :
    Raycast.wallCand ⟨0, 0, 0⟩ (Raycast.normalize ⟨1, 0, 0⟩) 100
      (⟨⟨-10, 0, -1⟩, ⟨-10, 0, 1⟩, ⟨0, 0, 5/2⟩, ⟨1, 0, 0⟩⟩ : Wall ℝ) =
      some ⟨true, 10, some ⟨10, 0, 0⟩, some ⟨1, 0, 0⟩, none⟩ := by
  unfold Raycast.wallCand
  rw [Raycast.normalize_unitX]
  simp only [Raycast.intersectsRay_wallB10]
  norm_num

theorem Raycast.sqrt_twentyfive : Real.sqrt 25 = 5 := by
  rw [show (25:ℝ) = 5^2 by norm_num, Real.sqrt_sq (by norm_num : (0:ℝ) ≤ 5)]

theorem Raycast.boxRay_ent :
    AABB.intersectRay (⟨⟨20, -1, -1⟩, ⟨30, 1, 1⟩⟩ : AABB ℝ) ⟨0, 0, 0⟩ ⟨1, 0, 0⟩ =
      (true, 20, 30) := by
  norm_num [AABB.intersectRay, AABB.slabInterval, AABB.clampDirComponent,
    abs_zero, abs_one, min_def, max_def]

theorem Raycast.entityCand_ent :
    Raycast.entityCand ⟨0, 0, 0⟩ (Raycast.normalize ⟨1, 0, 0⟩) 100
      ⟨7, ⟨25, 0, 0⟩, some ⟨⟨20, -1, -1⟩, ⟨30, 1, 1⟩⟩⟩ =
      some ⟨true, 20, some ⟨20, 0, 0⟩, some ⟨-1, 0, 0⟩, some 7⟩ := by
  unfold Raycast.entityCand
  rw [Raycast.normalize_unitX]
  norm_num [Raycast.boxRay_ent, Vec3.norm, Vec3.normSq, Vec3.add_def, Vec3.sub_def,
    Vec3.smul_def, Raycast.sqrt_twentyfive]

/-- C1 counterexample: with a wall through the origin (reported distance
0, accepted since `intersects_ray` requires only `u >= 0`) and a second
wall at reported distance 5 ≤ max_distance, `cast_ray` returns distance
0 — not the smallest positive candidate distance (5), refuting the
"smallest positive hit distance" wording. -/
theorem cast_ray_positive_cex :
    (Raycast.cast_ray ⟨0, 0, 0⟩ ⟨1, 0, 0⟩ 100
        ⟨[⟨⟨0, 0, -1⟩, ⟨0, 0, 1⟩, ⟨0, 0, 5/2⟩, ⟨1, 0, 0⟩⟩,
          ⟨⟨-5, 0, -1⟩, ⟨-5, 0, 1⟩, ⟨0, 0, 5/2⟩, ⟨1, 0, 0⟩⟩]⟩ []).distance = 0 ∧
    Raycast.wallCand ⟨0, 0, 0⟩ (Raycast.normalize ⟨1, 0, 0⟩) 100
      (⟨⟨-5, 0, -1⟩, ⟨-5, 0, 1⟩, ⟨0, 0, 5/2⟩, ⟨1, 0, 0⟩⟩ : Wall ℝ) =
      some ⟨true, 5, some ⟨5, 0, 0⟩, some ⟨1, 0, 0⟩, none⟩ ∧
    (0:ℝ) < 5 ∧ (5:ℝ) ≤ 100 := by
  refine ⟨?_, Raycast.wallCand_wallB5, by norm_num, by norm_num⟩
  have s1 : Raycast.updBest (Raycast.wallCand ⟨0, 0, 0⟩ (Raycast.normalize ⟨1, 0, 0⟩) 100)
      RaycastHit.init (⟨⟨0, 0, -1⟩, ⟨0, 0, 1⟩, ⟨0, 0, 5/2⟩, ⟨1, 0, 0⟩⟩ : Wall ℝ) =
      ⟨true, 0, some ⟨0, 0, 0⟩, some ⟨1, 0, 0⟩, none⟩ := by
    simp [Raycast.updBest, Raycast.wallCand_wallA, RaycastHit.init]
  have s2 : Raycast.updBest (Raycast.wallCand ⟨0, 0, 0⟩ (Raycast.normalize ⟨1, 0, 0⟩) 100)
      (⟨true, 0, some ⟨0, 0, 0⟩, some ⟨1, 0, 0⟩, none⟩ : RaycastHit)
      (⟨⟨-5, 0, -1⟩, ⟨-5, 0, 1⟩, ⟨0, 0, 5/2⟩, ⟨1, 0, 0⟩⟩ : Wall ℝ) =
      ⟨true, 0, some ⟨0, 0, 0⟩, some ⟨1, 0, 0⟩, none⟩ := by
    norm_num [Raycast.updBest, Raycast.wallCand_wallB5]
  have hcast : Raycast.cast_ray ⟨0, 0, 0⟩ ⟨1, 0, 0⟩ 100
      ⟨[⟨⟨0, 0, -1⟩, ⟨0, 0, 1⟩, ⟨0, 0, 5/2⟩, ⟨1, 0, 0⟩⟩,
        ⟨⟨-5, 0, -1⟩, ⟨-5, 0, 1⟩, ⟨0, 0, 5/2⟩, ⟨1, 0, 0⟩⟩]⟩ [] =
      ⟨true, 0, some ⟨0, 0, 0⟩, some ⟨1, 0, 0⟩, none⟩ := by
    simp only [Raycast.cast_ray, List.foldl_cons, List.foldl_nil]
    rw [s1, s2]
  rw [hcast]

/-- C1 witness: the amended theorem applied to two walls with reported
distances 5 and 10 and one entity with `t_near = 20`: the returned
distance lower-bounds both candidates, a hit is reported, and the
wall-only casts on the two orderings of the wall list agree. -/
theorem cast_ray_nearest_witness :
    (Raycast.cast_ray ⟨0, 0, 0⟩ ⟨1, 0, 0⟩ 100
        ⟨[⟨⟨-5, 0, -1⟩, ⟨-5, 0, 1⟩, ⟨0, 0, 5/2⟩, ⟨1, 0, 0⟩⟩,
          ⟨⟨-10, 0, -1⟩, ⟨-10, 0, 1⟩, ⟨0, 0, 5/2⟩, ⟨1, 0, 0⟩⟩]⟩
        [⟨7, ⟨25, 0, 0⟩, some ⟨⟨20, -1, -1⟩, ⟨30, 1, 1⟩⟩⟩]).hit = true ∧
    (Raycast.cast_ray ⟨0, 0, 0⟩ ⟨1, 0, 0⟩ 100
        ⟨[⟨⟨-5, 0, -1⟩, ⟨-5, 0, 1⟩, ⟨0, 0, 5/2⟩, ⟨1, 0, 0⟩⟩,
          ⟨⟨-10, 0, -1⟩, ⟨-10, 0, 1⟩, ⟨0, 0, 5/2⟩, ⟨1, 0, 0⟩⟩]⟩
        [⟨7, ⟨25, 0, 0⟩, some ⟨⟨20, -1, -1⟩, ⟨30, 1, 1⟩⟩⟩]).distance ≤ 5 ∧
    (Raycast.cast_ray ⟨0, 0, 0⟩ ⟨1, 0, 0⟩ 100
        ⟨[⟨⟨-5, 0, -1⟩, ⟨-5, 0, 1⟩, ⟨0, 0, 5/2⟩, ⟨1, 0, 0⟩⟩,
          ⟨⟨-10, 0, -1⟩, ⟨-10, 0, 1⟩, ⟨0, 0, 5/2⟩, ⟨1, 0, 0⟩⟩]⟩
        [⟨7, ⟨25, 0, 0⟩, some ⟨⟨20, -1, -1⟩, ⟨30, 1, 1⟩⟩⟩]).distance ≤ 20 ∧
    Raycast.cast_ray ⟨0, 0, 0⟩ ⟨1, 0, 0⟩ 100
        ⟨[⟨⟨-5, 0, -1⟩, ⟨-5, 0, 1⟩, ⟨0, 0, 5/2⟩, ⟨1, 0, 0⟩⟩,
          ⟨⟨-10, 0, -1⟩, ⟨-10, 0, 1⟩, ⟨0, 0, 5/2⟩, ⟨1, 0, 0⟩⟩]⟩ [] =
      Raycast.cast_ray ⟨0, 0, 0⟩ ⟨1, 0, 0⟩ 100
        ⟨[⟨⟨-10, 0, -1⟩, ⟨-10, 0, 1⟩, ⟨0, 0, 5/2⟩, ⟨1, 0, 0⟩⟩,
          ⟨⟨-5, 0, -1⟩, ⟨-5, 0, 1⟩, ⟨0, 0, 5/2⟩, ⟨1, 0, 0⟩⟩]⟩ [] := by
  have h := cast_ray_nearest_amended ⟨0, 0, 0⟩ ⟨1, 0, 0⟩ 100
    ⟨[⟨⟨-5, 0, -1⟩, ⟨-5, 0, 1⟩, ⟨0, 0, 5/2⟩, ⟨1, 0, 0⟩⟩,
      ⟨⟨-10, 0, -1⟩, ⟨-10, 0, 1⟩, ⟨0, 0, 5/2⟩, ⟨1, 0, 0⟩⟩]⟩
    [⟨7, ⟨25, 0, 0⟩, some ⟨⟨20, -1, -1⟩, ⟨30, 1, 1⟩⟩⟩]
  refine ⟨?_, ?_, ?_, ?_⟩
  · exact (h.1 _ (List.mem_cons_self _ _) _ Raycast.wallCand_wallB5).1
  · exact (h.1 _ (List.mem_cons_self _ _) _ Raycast.wallCand_wallB5).2
  · exact (h.2.1 _ (List.mem_cons_self _ _) _ Raycast.entityCand_ent).2
  · refine h.2.2.2 _ (List.Perm.swap _ _ _) ?_
    intro w hw w' hw' hh hh' hcw hcw' hd
    fin_cases hw <;> fin_cases hw' <;>
      simp only [Raycast.wallCand_wallB5, Raycast.wallCand_wallB10,
        Option.some.injEq] at hcw hcw' <;>
      subst hcw <;> subst hcw' <;>
      first
        | rfl
        | norm_num at hd

/-! ### C3: resolve_aabb_wall_collision separates -/

theorem clamp_shift (s k : ℝ) (hk : 0 ≤ k) :
    max 0 (min 1 (s + k * (s - max 0 (min 1 s)))) = max 0 (min 1 s) := by
  rcases le_or_lt s 0 with h0 | h0
  · rw [min_eq_right (le_trans h0 zero_le_one), max_eq_left h0]
    have hs' : s + k * (s - 0) ≤ 0 := by nlinarith
    rw [min_eq_right (le_trans hs' zero_le_one), max_eq_left hs']
  · rcases le_or_lt s 1 with h1 | h1
    · rw [min_eq_right h1, max_eq_right (le_of_lt h0)]
      have hs' : s + k * (s - s) = s := by ring
      rw [hs', min_eq_right h1, max_eq_right (le_of_lt h0)]
    · rw [min_eq_left (le_of_lt h1), max_eq_right zero_le_one]
      have hs' : (1:ℝ) ≤ s + k * (s - 1) := by nlinarith
      rw [min_eq_left hs', max_eq_right zero_le_one]

theorem segOffset_core (X1 Z1 DX DZ cx cz k t : ℝ) (hk : 0 ≤ k)
    (hL : DX * DX + DZ * DZ ≠ 0)
    (htdef : t = Max.max 0 (Min.min 1
      (((cx - X1) * DX + (cz - Z1) * DZ) / (DX * DX + DZ * DZ)))) :
    Max.max 0 (Min.min 1 (((cx + k * (cx - (X1 + t * DX)) - X1) * DX +
        (cz + k * (cz - (Z1 + t * DZ)) - Z1) * DZ) / (DX * DX + DZ * DZ))) = t := by
  have hs' : ((cx + k * (cx - (X1 + t * DX)) - X1) * DX +
      (cz + k * (cz - (Z1 + t * DZ)) - Z1) * DZ) / (DX * DX + DZ * DZ) =
      ((cx - X1) * DX + (cz - Z1) * DZ) / (DX * DX + DZ * DZ) +
        k * (((cx - X1) * DX + (cz - Z1) * DZ) / (DX * DX + DZ * DZ) - t) := by
    field_simp
    ring
  rw [hs', htdef]
  exact clamp_shift _ k hk

theorem segOffset_shift (w : Wall ℝ) (cx cz k : ℝ) (hk : 0 ≤ k)
    (hL : (w.end_.x - w.start.x) * (w.end_.x - w.start.x) +
      (w.end_.z - w.start.z) * (w.end_.z - w.start.z) ≠ 0) :
    CollisionSystem.segOffset w (cx + k * (CollisionSystem.segOffset w cx cz).1)
        (cz + k * (CollisionSystem.segOffset w cx cz).2) =
      ((1 + k) * (CollisionSystem.segOffset w cx cz).1,
       (1 + k) * (CollisionSystem.segOffset w cx cz).2) := by
  simp only [CollisionSystem.segOffset]
  rw [segOffset_core w.start.x w.start.z (w.end_.x - w.start.x) (w.end_.z - w.start.z)
    cx cz k _ hk hL rfl]
  simp only [Prod.mk.injEq]
  constructor <;> ring

theorem segDistance_shift (w : Wall ℝ) (cx cz k : ℝ) (hk : 0 ≤ k)
    (hL : (w.end_.x - w.start.x) * (w.end_.x - w.start.x) +
      (w.end_.z - w.start.z) * (w.end_.z - w.start.z) ≠ 0) :
    CollisionSystem.segDistance w (cx + k * (CollisionSystem.segOffset w cx cz).1)
        (cz + k * (CollisionSystem.segOffset w cx cz).2) =
      (1 + k) * CollisionSystem.segDistance w cx cz := by
  unfold CollisionSystem.segDistance
  rw [segOffset_shift w cx cz k hk hL]
  have hsq : ((1 + k) * (CollisionSystem.segOffset w cx cz).1, (1 + k) *
        (CollisionSystem.segOffset w cx cz).2).1 *
      ((1 + k) * (CollisionSystem.segOffset w cx cz).1, (1 + k) *
        (CollisionSystem.segOffset w cx cz).2).1 +
      ((1 + k) * (CollisionSystem.segOffset w cx cz).1, (1 + k) *
        (CollisionSystem.segOffset w cx cz).2).2 *
      ((1 + k) * (CollisionSystem.segOffset w cx cz).1, (1 + k) *
        (CollisionSystem.segOffset w cx cz).2).2 =
      (1 + k)^2 * ((CollisionSystem.segOffset w cx cz).1 *
        (CollisionSystem.segOffset w cx cz).1 +
        (CollisionSystem.segOffset w cx cz).2 * (CollisionSystem.segOffset w cx cz).2) := by
    ring
  rw [hsq, Real.sqrt_mul (sq_nonneg _), Real.sqrt_sq (by linarith : (0:ℝ) ≤ 1 + k)]

theorem segOffset_shift_perp (w : Wall ℝ) (cx cz nx nz lam : ℝ)
    (hperp : nx * (w.end_.x - w.start.x) + nz * (w.end_.z - w.start.z) = 0) :
    CollisionSystem.segOffset w (cx + lam * nx) (cz + lam * nz) =
      ((CollisionSystem.segOffset w cx cz).1 + lam * nx,
       (CollisionSystem.segOffset w cx cz).2 + lam * nz) := by
  simp only [CollisionSystem.segOffset]
  have hnum : (cx + lam * nx - w.start.x) * (w.end_.x - w.start.x) +
      (cz + lam * nz - w.start.z) * (w.end_.z - w.start.z) =
      (cx - w.start.x) * (w.end_.x - w.start.x) +
        (cz - w.start.z) * (w.end_.z - w.start.z) := by
    linear_combination lam * hperp
  rw [hnum]
  simp only [Prod.mk.injEq]
  constructor <;> ring

theorem segDistance_shift_perp (w : Wall ℝ) (cx cz nx nz lam : ℝ)
    (hperp : nx * (w.end_.x - w.start.x) + nz * (w.end_.z - w.start.z) = 0)
    (hunit : nx * nx + nz * nz = 1) (hlam : 0 ≤ lam) :
    lam - CollisionSystem.segDistance w cx cz ≤
      CollisionSystem.segDistance w (cx + lam * nx) (cz + lam * nz) := by
  unfold CollisionSystem.segDistance
  rw [segOffset_shift_perp w cx cz nx nz lam hperp]
  set u1 := (CollisionSystem.segOffset w cx cz).1 with hu1
  set u2 := (CollisionSystem.segOffset w cx cz).2 with hu2
  set D := u1 * u1 + u2 * u2 with hD
  have hDnn : 0 ≤ D := by nlinarith [mul_self_nonneg u1, mul_self_nonneg u2]
  set d := Real.sqrt D with hd
  have hdnn : 0 ≤ d := Real.sqrt_nonneg D
  have hdsq : d * d = D := Real.mul_self_sqrt hDnn
  have hcs : (u1 * nx + u2 * nz) * (u1 * nx + u2 * nz) ≤ D := by
    nlinarith [mul_self_nonneg (u1 * nz - u2 * nx)]
  have hdot : -d ≤ u1 * nx + u2 * nz := by nlinarith
  have hsq : ((u1 + lam * nx) * (u1 + lam * nx) + (u2 + lam * nz) * (u2 + lam * nz)) =
      D + 2 * lam * (u1 * nx + u2 * nz) + lam ^ 2 := by
    rw [hD]; linear_combination lam ^ 2 * hunit
  have hlb : (lam - d) ^ 2 ≤ (u1 + lam * nx) * (u1 + lam * nx) +
      (u2 + lam * nz) * (u2 + lam * nz) := by
    rw [hsq]
    nlinarith
  calc lam - d ≤ |lam - d| := le_abs_self _
    _ = Real.sqrt ((lam - d) ^ 2) := (Real.sqrt_sq_eq_abs _).symm
    _ ≤ Real.sqrt ((u1 + lam * nx) * (u1 + lam * nx) +
        (u2 + lam * nz) * (u2 + lam * nz)) := Real.sqrt_le_sqrt hlb

theorem Vec3.add_x {α : Type*} [LinearOrderedField α] (a b : Vec3 α) :
    (a + b).x = a.x + b.x := rfl

theorem Vec3.add_z {α : Type*} [LinearOrderedField α] (a b : Vec3 α) :
    (a + b).z = a.z + b.z := rfl

theorem Vec3.smul_x {α : Type*} [LinearOrderedField α] (c : α) (a : Vec3 α) :
    (c • a).x = c * a.x := rfl

theorem Vec3.smul_z {α : Type*} [LinearOrderedField α] (c : α) (a : Vec3 α) :
    (c • a).z = c * a.z := rfl

theorem check_char (aabb : AABB ℝ) (wall : Wall ℝ) :
    CollisionSystem.check_aabb_wall_collision aabb wall =
      (if (wall.end_.x - wall.start.x) * (wall.end_.x - wall.start.x) +
          (wall.end_.z - wall.start.z) * (wall.end_.z - wall.start.z) < 1 / 1000000
       then ⟨false, 0, 0⟩
       else
        if CollisionSystem.segDistance wall aabb.getCenter.x aabb.getCenter.z <
            Max.max aabb.getSize.x aabb.getSize.z * (1 / 2) then
          ⟨true,
           Max.max aabb.getSize.x aabb.getSize.z * (1 / 2) -
             CollisionSystem.segDistance wall aabb.getCenter.x aabb.getCenter.z,
           if CollisionSystem.segDistance wall aabb.getCenter.x aabb.getCenter.z >
               1 / 1000000 then
             ⟨(CollisionSystem.segOffset wall aabb.getCenter.x aabb.getCenter.z).1 /
                CollisionSystem.segDistance wall aabb.getCenter.x aabb.getCenter.z, 0,
              (CollisionSystem.segOffset wall aabb.getCenter.x aabb.getCenter.z).2 /
                CollisionSystem.segDistance wall aabb.getCenter.x aabb.getCenter.z⟩
           else wall.normal⟩
        else ⟨false, 0, 0⟩) := rfl

theorem check_collides_iff (aabb : AABB ℝ) (wall : Wall ℝ) :
    (CollisionSystem.check_aabb_wall_collision aabb wall).collides = true ↔
      (¬ ((wall.end_.x - wall.start.x) * (wall.end_.x - wall.start.x) +
          (wall.end_.z - wall.start.z) * (wall.end_.z - wall.start.z) < 1 / 1000000) ∧
       CollisionSystem.segDistance wall aabb.getCenter.x aabb.getCenter.z <
         Max.max aabb.getSize.x aabb.getSize.z * (1 / 2)) := by
  rw [check_char]
  by_cases h1 : (wall.end_.x - wall.start.x) * (wall.end_.x - wall.start.x) +
      (wall.end_.z - wall.start.z) * (wall.end_.z - wall.start.z) < 1 / 1000000
  · rw [if_pos h1]
    exact iff_of_false (by simp) (fun hx => hx.1 h1)
  · rw [if_neg h1]
    by_cases h2 : CollisionSystem.segDistance wall aabb.getCenter.x aabb.getCenter.z <
        Max.max aabb.getSize.x aabb.getSize.z * (1 / 2)
    · rw [if_pos h2]
      exact iff_of_true rfl ⟨h1, h2⟩
    · rw [if_neg h2]
      exact iff_of_false (by simp) (fun hx => h2 hx.2)

theorem check_fields (aabb : AABB ℝ) (wall : Wall ℝ)
    (h1 : ¬ ((wall.end_.x - wall.start.x) * (wall.end_.x - wall.start.x) +
      (wall.end_.z - wall.start.z) * (wall.end_.z - wall.start.z) < 1 / 1000000))
    (h2 : CollisionSystem.segDistance wall aabb.getCenter.x aabb.getCenter.z <
      Max.max aabb.getSize.x aabb.getSize.z * (1 / 2)) :
    CollisionSystem.check_aabb_wall_collision aabb wall =
      ⟨true,
       Max.max aabb.getSize.x aabb.getSize.z * (1 / 2) -
         CollisionSystem.segDistance wall aabb.getCenter.x aabb.getCenter.z,
       if CollisionSystem.segDistance wall aabb.getCenter.x aabb.getCenter.z >
           1 / 1000000 then
         ⟨(CollisionSystem.segOffset wall aabb.getCenter.x aabb.getCenter.z).1 /
            CollisionSystem.segDistance wall aabb.getCenter.x aabb.getCenter.z, 0,
          (CollisionSystem.segOffset wall aabb.getCenter.x aabb.getCenter.z).2 /
            CollisionSystem.segDistance wall aabb.getCenter.x aabb.getCenter.z⟩
       else wall.normal⟩ := by
  rw [check_char, if_neg h1, if_pos h2]

theorem sep_radial (wall : Wall ℝ) (cx cz r : ℝ)
    (hL : ¬ ((wall.end_.x - wall.start.x) * (wall.end_.x - wall.start.x) +
      (wall.end_.z - wall.start.z) * (wall.end_.z - wall.start.z) < 1 / 1000000))
    (hd : CollisionSystem.segDistance wall cx cz > 1 / 1000000)
    (hcol : CollisionSystem.segDistance wall cx cz < r) :
    r ≤ CollisionSystem.segDistance wall
      (cx + (r - CollisionSystem.segDistance wall cx cz + 1 / 1000) *
        ((CollisionSystem.segOffset wall cx cz).1 /
          CollisionSystem.segDistance wall cx cz))
      (cz + (r - CollisionSystem.segDistance wall cx cz + 1 / 1000) *
        ((CollisionSystem.segOffset wall cx cz).2 /
          CollisionSystem.segDistance wall cx cz)) := by
  set d := CollisionSystem.segDistance wall cx cz with hddef
  have hd0 : (0:ℝ) < d := lt_trans (by norm_num) hd
  have hdne : d ≠ 0 := ne_of_gt hd0
  have hLne : (wall.end_.x - wall.start.x) * (wall.end_.x - wall.start.x) +
      (wall.end_.z - wall.start.z) * (wall.end_.z - wall.start.z) ≠ 0 :=
    ne_of_gt (lt_of_lt_of_le (by norm_num) (not_lt.mp hL))
  set k := (r - d + 1/1000) / d with hkdef
  have hk : 0 ≤ k := div_nonneg (by linarith) (le_of_lt hd0)
  have harg1 : cx + (r - d + 1/1000) * ((CollisionSystem.segOffset wall cx cz).1 / d) =
      cx + k * (CollisionSystem.segOffset wall cx cz).1 := by rw [hkdef]; ring
  have harg2 : cz + (r - d + 1/1000) * ((CollisionSystem.segOffset wall cx cz).2 / d) =
      cz + k * (CollisionSystem.segOffset wall cx cz).2 := by rw [hkdef]; ring
  rw [harg1, harg2, segDistance_shift wall cx cz k hk hLne, ← hddef]
  have hval : (1 + k) * d = r + 1/1000 := by
    rw [hkdef]; field_simp; ring
  rw [hval]
  linarith

theorem sep_perp (wall : Wall ℝ) (hn : wall.normalValid) (cx cz r : ℝ)
    (hd : ¬ CollisionSystem.segDistance wall cx cz > 1 / 1000000)
    (hcol : CollisionSystem.segDistance wall cx cz < r) :
    r ≤ CollisionSystem.segDistance wall
      (cx + (r - CollisionSystem.segDistance wall cx cz + 1 / 1000) * wall.normal.x)
      (cz + (r - CollisionSystem.segDistance wall cx cz + 1 / 1000) * wall.normal.z) := by
  obtain ⟨hy, hperp, hunit⟩ := hn
  set d := CollisionSystem.segDistance wall cx cz with hddef
  have hd' : d ≤ 1/1000000 := not_lt.mp hd
  have hdnn : 0 ≤ d := by
    rw [hddef]; unfold CollisionSystem.segDistance; exact Real.sqrt_nonneg _
  have hlam : 0 ≤ r - d + 1/1000 := by linarith
  have h := segDistance_shift_perp wall cx cz wall.normal.x wall.normal.z
    (r - d + 1/1000) hperp hunit hlam
  rw [← hddef] at h
  linarith

theorem check_collides_false (aabb : AABB ℝ) (wall : Wall ℝ)
    (h : ¬ CollisionSystem.segDistance wall aabb.getCenter.x aabb.getCenter.z <
      Max.max aabb.getSize.x aabb.getSize.z * (1/2)) :
    (CollisionSystem.check_aabb_wall_collision aabb wall).collides = false := by
  cases hcc : (CollisionSystem.check_aabb_wall_collision aabb wall).collides with
  | false => rfl
  | true => exact absurd ((check_collides_iff aabb wall).mp hcc).2 h

/-- C3: for a wall whose stored normal is the unit XZ perpendicular (as
`_compute_normal` computes for a non-degenerate wall): when the AABB
translated to `position` collides with the wall,
`resolve_aabb_wall_collision` returns the position displaced along the
collision normal by `penetration + 0.001`, and the check at the resolved
position reports no collision; when it does not collide, the position is
returned unchanged. -/
theorem resolve_wall_separation (position : Vec3 ℝ) (aabb : AABB ℝ) (wall : Wall ℝ)
    (hn : wall.normalValid) :
    ((CollisionSystem.check_aabb_wall_collision (aabb.translate position) wall).collides
        = true →
      CollisionSystem.resolve_aabb_wall_collision position aabb wall =
        position +
          ((CollisionSystem.check_aabb_wall_collision
              (aabb.translate position) wall).penetration + 1/1000) •
            (CollisionSystem.check_aabb_wall_collision
              (aabb.translate position) wall).normal ∧
      (CollisionSystem.check_aabb_wall_collision
        (aabb.translate (CollisionSystem.resolve_aabb_wall_collision position aabb wall))
        wall).collides = false) ∧
    ((CollisionSystem.check_aabb_wall_collision (aabb.translate position) wall).collides
        = false →
      CollisionSystem.resolve_aabb_wall_collision position aabb wall = position) := by
  constructor
  · intro hcol
    have hres : CollisionSystem.resolve_aabb_wall_collision position aabb wall =
        position +
          ((CollisionSystem.check_aabb_wall_collision
              (aabb.translate position) wall).penetration + 1/1000) •
            (CollisionSystem.check_aabb_wall_collision
              (aabb.translate position) wall).normal := by
      simp only [CollisionSystem.resolve_aabb_wall_collision]
      rw [if_pos hcol]
    refine ⟨hres, ?_⟩
    obtain ⟨h1, h2⟩ := (check_collides_iff (aabb.translate position) wall).mp hcol
    have hfields := check_fields (aabb.translate position) wall h1 h2
    have hcx : (aabb.translate position).getCenter.x = aabb.getCenter.x + position.x := by
      rw [AABB.getCenter_translate, Vec3.add_x]
    have hcz : (aabb.translate position).getCenter.z = aabb.getCenter.z + position.z := by
      rw [AABB.getCenter_translate, Vec3.add_z]
    have hsz := AABB.getSize_translate aabb position
    rw [hcx, hcz, hsz] at h2
    apply check_collides_false
    rw [hres, AABB.getCenter_translate, AABB.getSize_translate]
    simp only [hfields, hcx, hcz, hsz]
    by_cases hd : CollisionSystem.segDistance wall (aabb.getCenter.x + position.x)
        (aabb.getCenter.z + position.z) > 1/1000000
    · rw [if_pos hd]
      simp only [Vec3.add_x, Vec3.add_z, Vec3.smul_x, Vec3.smul_z]
      apply not_lt.mpr
      have hsep := sep_radial wall (aabb.getCenter.x + position.x)
        (aabb.getCenter.z + position.z)
        (Max.max aabb.getSize.x aabb.getSize.z * (1/2)) h1 hd h2
      convert hsep using 2 <;> ring
    · rw [if_neg hd]
      simp only [Vec3.add_x, Vec3.add_z, Vec3.smul_x, Vec3.smul_z]
      apply not_lt.mpr
      have hsep := sep_perp wall hn (aabb.getCenter.x + position.x)
        (aabb.getCenter.z + position.z)
        (Max.max aabb.getSize.x aabb.getSize.z * (1/2)) hd h2
      convert hsep using 2 <;> ring
  · intro hcol
    simp [CollisionSystem.resolve_aabb_wall_collision, hcol]

/-- C3 witness: a unit-radius box at `(2, 0, 1/2)` against the wall from
`(0,0,0)` to `(4,0,0)` (unit normal `(0,0,-1)`): the check reports a
collision, and after `resolve_aabb_wall_collision` the check reports
none.  Proved by applying the separation theorem at this input. -/
theorem resolve_wall_separation_witness :
    (CollisionSystem.check_aabb_wall_collision
        ((⟨⟨-1, -1, -1⟩, ⟨1, 1, 1⟩⟩ : AABB ℝ).translate ⟨2, 0, 1/2⟩)
        ⟨⟨0, 0, 0⟩, ⟨4, 0, 0⟩, ⟨0, 0, 5/2⟩, ⟨0, 0, -1⟩⟩).collides = true ∧
    (CollisionSystem.check_aabb_wall_collision
        ((⟨⟨-1, -1, -1⟩, ⟨1, 1, 1⟩⟩ : AABB ℝ).translate
          (CollisionSystem.resolve_aabb_wall_collision ⟨2, 0, 1/2⟩
            ⟨⟨-1, -1, -1⟩, ⟨1, 1, 1⟩⟩ ⟨⟨0, 0, 0⟩, ⟨4, 0, 0⟩, ⟨0, 0, 5/2⟩, ⟨0, 0, -1⟩⟩))
        ⟨⟨0, 0, 0⟩, ⟨4, 0, 0⟩, ⟨0, 0, 5/2⟩, ⟨0, 0, -1⟩⟩).collides = false := by
  have hso : CollisionSystem.segOffset
      (⟨⟨0, 0, 0⟩, ⟨4, 0, 0⟩, ⟨0, 0, 5/2⟩, ⟨0, 0, -1⟩⟩ : Wall ℝ) 2 (1/2) =
      (0, 1/2) := by
    norm_num [CollisionSystem.segOffset, min_def, max_def]
  have hsd : CollisionSystem.segDistance
      (⟨⟨0, 0, 0⟩, ⟨4, 0, 0⟩, ⟨0, 0, 5/2⟩, ⟨0, 0, -1⟩⟩ : Wall ℝ) 2 (1/2) = 1/2 := by
    unfold CollisionSystem.segDistance
    rw [hso]
    have harg : ((0:ℝ), (1:ℝ)/2).1 * ((0:ℝ), (1:ℝ)/2).1 +
        ((0:ℝ), (1:ℝ)/2).2 * ((0:ℝ), (1:ℝ)/2).2 = (1/2)^2 := by norm_num
    rw [harg, Real.sqrt_sq (by norm_num : (0:ℝ) ≤ 1/2)]
  have hXc : ((⟨⟨-1, -1, -1⟩, ⟨1, 1, 1⟩⟩ : AABB ℝ).translate ⟨2, 0, 1/2⟩).getCenter =
      (⟨2, 0, 1/2⟩ : Vec3 ℝ) := by
    norm_num [AABB.translate, AABB.getCenter, Vec3.add_def, Vec3.smul_def]
  have hXs : ((⟨⟨-1, -1, -1⟩, ⟨1, 1, 1⟩⟩ : AABB ℝ).translate ⟨2, 0, 1/2⟩).getSize =
      (⟨2, 2, 2⟩ : Vec3 ℝ) := by
    norm_num [AABB.translate, AABB.getSize, Vec3.sub_def, Vec3.add_def]
  have hcol : (CollisionSystem.check_aabb_wall_collision
      ((⟨⟨-1, -1, -1⟩, ⟨1, 1, 1⟩⟩ : AABB ℝ).translate ⟨2, 0, 1/2⟩)
      ⟨⟨0, 0, 0⟩, ⟨4, 0, 0⟩, ⟨0, 0, 5/2⟩, ⟨0, 0, -1⟩⟩).collides = true := by
    apply (check_collides_iff _ _).mpr
    refine ⟨by norm_num, ?_⟩
    simp only [hXc, hXs]
    norm_num [hsd]
  exact ⟨hcol, ((resolve_wall_separation ⟨2, 0, 1/2⟩ ⟨⟨-1, -1, -1⟩, ⟨1, 1, 1⟩⟩
    ⟨⟨0, 0, 0⟩, ⟨4, 0, 0⟩, ⟨0, 0, 5/2⟩, ⟨0, 0, -1⟩⟩
    (by norm_num [Wall.normalValid])).1 hcol).2⟩

/-! ### C7: slide_collision -/

theorem check_normal_unit (aabb : AABB ℝ) (wall : Wall ℝ) (hn : wall.normalValid)
    (hcol : (CollisionSystem.check_aabb_wall_collision aabb wall).collides = true) :
    (CollisionSystem.check_aabb_wall_collision aabb wall).normal.y = 0 ∧
    (CollisionSystem.check_aabb_wall_collision aabb wall).normal.x *
        (CollisionSystem.check_aabb_wall_collision aabb wall).normal.x +
      (CollisionSystem.check_aabb_wall_collision aabb wall).normal.z *
        (CollisionSystem.check_aabb_wall_collision aabb wall).normal.z = 1 := by
  obtain ⟨h1, h2⟩ := (check_collides_iff aabb wall).mp hcol
  rw [check_fields aabb wall h1 h2]
  by_cases hd : CollisionSystem.segDistance wall aabb.getCenter.x aabb.getCenter.z >
      1 / 1000000
  · rw [if_pos hd]
    refine ⟨rfl, ?_⟩
    have hdpos : (0:ℝ) < CollisionSystem.segDistance wall aabb.getCenter.x
        aabb.getCenter.z := lt_trans (by norm_num) hd
    have hnn : (0:ℝ) ≤
        (CollisionSystem.segOffset wall aabb.getCenter.x aabb.getCenter.z).1 *
          (CollisionSystem.segOffset wall aabb.getCenter.x aabb.getCenter.z).1 +
        (CollisionSystem.segOffset wall aabb.getCenter.x aabb.getCenter.z).2 *
          (CollisionSystem.segOffset wall aabb.getCenter.x aabb.getCenter.z).2 := by
      have k1 := mul_self_nonneg
        (CollisionSystem.segOffset wall aabb.getCenter.x aabb.getCenter.z).1
      have k2 := mul_self_nonneg
        (CollisionSystem.segOffset wall aabb.getCenter.x aabb.getCenter.z).2
      linarith
    have hdd : CollisionSystem.segDistance wall aabb.getCenter.x aabb.getCenter.z *
        CollisionSystem.segDistance wall aabb.getCenter.x aabb.getCenter.z =
        (CollisionSystem.segOffset wall aabb.getCenter.x aabb.getCenter.z).1 *
          (CollisionSystem.segOffset wall aabb.getCenter.x aabb.getCenter.z).1 +
        (CollisionSystem.segOffset wall aabb.getCenter.x aabb.getCenter.z).2 *
          (CollisionSystem.segOffset wall aabb.getCenter.x aabb.getCenter.z).2 := by
      unfold CollisionSystem.segDistance
      exact Real.mul_self_sqrt hnn
    dsimp only
    field_simp
    linarith [hdd]
  · rw [if_neg hd]
    exact ⟨hn.1, hn.2.2⟩

/-- C7: `slide_collision` advances to the tentative position
`position + velocity * dt` and then applies, wall by wall in list order,
the push-out / velocity-projection step (the `walls ++ [w']` conjunct);
for a single wall with a valid stored normal: a miss leaves the tentative
position and velocity unchanged; a hit pushes the position out along the
collision normal by `penetration + 0.001` and, exactly when
`dot(velocity, normal) < 0`, zeroes the velocity's component along the
normal while preserving every tangential component; the post-slide
velocity's component along the normal is never negative. -/
theorem slide_collision_single (position velocity : Vec3 ℝ) (aabb : AABB ℝ)
    (w : Wall ℝ) (dt : ℝ) (hn : w.normalValid) :
    (∀ (walls : List (Wall ℝ)) (w' : Wall ℝ),
      CollisionSystem.slide_collision position velocity aabb (walls ++ [w']) dt =
        CollisionSystem.slideStep aabb
          (CollisionSystem.slide_collision position velocity aabb walls dt) w') ∧
    ((CollisionSystem.check_aabb_wall_collision
        (aabb.translate (position + dt • velocity)) w).collides = false →
      CollisionSystem.slide_collision position velocity aabb [w] dt =
        (position + dt • velocity, velocity)) ∧
    ((CollisionSystem.check_aabb_wall_collision
        (aabb.translate (position + dt • velocity)) w).collides = true →
      (CollisionSystem.slide_collision position velocity aabb [w] dt).1 =
        position + dt • velocity +
          ((CollisionSystem.check_aabb_wall_collision
              (aabb.translate (position + dt • velocity)) w).penetration + 1/1000) •
            (CollisionSystem.check_aabb_wall_collision
              (aabb.translate (position + dt • velocity)) w).normal ∧
      (0 ≤ velocity.dot (CollisionSystem.check_aabb_wall_collision
          (aabb.translate (position + dt • velocity)) w).normal →
        (CollisionSystem.slide_collision position velocity aabb [w] dt).2 = velocity) ∧
      (velocity.dot (CollisionSystem.check_aabb_wall_collision
          (aabb.translate (position + dt • velocity)) w).normal < 0 →
        ((CollisionSystem.slide_collision position velocity aabb [w] dt).2).dot
          (CollisionSystem.check_aabb_wall_collision
            (aabb.translate (position + dt • velocity)) w).normal = 0 ∧
        (∀ tv : Vec3 ℝ,
          tv.dot (CollisionSystem.check_aabb_wall_collision
            (aabb.translate (position + dt • velocity)) w).normal = 0 →
          ((CollisionSystem.slide_collision position velocity aabb [w] dt).2).dot tv =
            velocity.dot tv)) ∧
      0 ≤ ((CollisionSystem.slide_collision position velocity aabb [w] dt).2).dot
        (CollisionSystem.check_aabb_wall_collision
          (aabb.translate (position + dt • velocity)) w).normal) := by
  have happ : ∀ (walls : List (Wall ℝ)) (w' : Wall ℝ),
      CollisionSystem.slide_collision position velocity aabb (walls ++ [w']) dt =
        CollisionSystem.slideStep aabb
          (CollisionSystem.slide_collision position velocity aabb walls dt) w' := by
    intro walls w'
    unfold CollisionSystem.slide_collision
    rw [List.foldl_append, List.foldl_cons, List.foldl_nil]
  have hone : CollisionSystem.slide_collision position velocity aabb [w] dt =
      CollisionSystem.slideStep aabb (position + dt • velocity, velocity) w := by
    unfold CollisionSystem.slide_collision
    rw [List.foldl_cons, List.foldl_nil]
  refine ⟨happ, ?_, ?_⟩
  · intro hmiss
    rw [hone]
    simp only [CollisionSystem.slideStep]
    rw [if_neg (by rw [hmiss]; exact Bool.false_ne_true)]
  · intro hcol
    set c := CollisionSystem.check_aabb_wall_collision
      (aabb.translate (position + dt • velocity)) w with hc
    have hstep : CollisionSystem.slideStep aabb (position + dt • velocity, velocity) w =
        (position + dt • velocity + (c.penetration + 1/1000) • c.normal,
         if velocity.dot c.normal < 0 then
           velocity - (velocity.dot c.normal) • c.normal
         else velocity) := by
      simp only [CollisionSystem.slideStep]
      rw [← hc, if_pos hcol]
    obtain ⟨hy, hunit⟩ := check_normal_unit (aabb.translate (position + dt • velocity))
      w hn hcol
    rw [← hc] at hy hunit
    have hnn1 : c.normal.x * c.normal.x + c.normal.y * c.normal.y +
        c.normal.z * c.normal.z = 1 := by
      rw [hy]; linarith [hunit]
    refine ⟨by rw [hone, hstep], ?_, ?_, ?_⟩
    · intro h0
      rw [hone, hstep]
      rw [if_neg (not_lt.mpr h0)]
    · intro hneg
      rw [hone, hstep, if_pos hneg]
      constructor
      · have hexp : (velocity - (velocity.dot c.normal) • c.normal).dot c.normal =
            velocity.dot c.normal * (1 - (c.normal.x * c.normal.x +
              c.normal.y * c.normal.y + c.normal.z * c.normal.z)) := by
          simp only [Vec3.dot, Vec3.sub_def, Vec3.smul_def]
          ring
        rw [hexp, hnn1]
        ring
      · intro tv htv
        have hexp : (velocity - (velocity.dot c.normal) • c.normal).dot tv =
            velocity.dot tv - velocity.dot c.normal * (tv.dot c.normal) := by
          simp only [Vec3.dot, Vec3.sub_def, Vec3.smul_def]
          ring
        rw [hexp, htv]
        ring
    · rw [hone, hstep]
      by_cases hneg : velocity.dot c.normal < 0
      · rw [if_pos hneg]
        have hexp : (velocity - (velocity.dot c.normal) • c.normal).dot c.normal =
            velocity.dot c.normal * (1 - (c.normal.x * c.normal.x +
              c.normal.y * c.normal.y + c.normal.z * c.normal.z)) := by
          simp only [Vec3.dot, Vec3.sub_def, Vec3.smul_def]
          ring
        rw [hexp, hnn1]
        norm_num
      · rw [if_neg hneg]
        exact not_lt.mp hneg

/-- C7 witness: an entity moving diagonally (velocity `(1, 0, -1)`) into
the wall from `(0,0,0)` to `(4,0,0)`: after `slide_collision` the
velocity component along the collision normal `(0,0,1)` is zero and the
tangential component along `(1,0,0)` is preserved.  Proved by applying
the slide theorem at this input. -/
theorem slide_collision_witness :
    ((CollisionSystem.slide_collision ⟨1, 0, 3/2⟩ ⟨1, 0, -1⟩
        (⟨⟨-1, -1, -1⟩, ⟨1, 1, 1⟩⟩ : AABB ℝ)
        [⟨⟨0, 0, 0⟩, ⟨4, 0, 0⟩, ⟨0, 0, 5/2⟩, ⟨0, 0, -1⟩⟩] 1).2).dot
      (CollisionSystem.check_aabb_wall_collision
        ((⟨⟨-1, -1, -1⟩, ⟨1, 1, 1⟩⟩ : AABB ℝ).translate
          ((⟨1, 0, 3/2⟩ : Vec3 ℝ) + (1:ℝ) • ⟨1, 0, -1⟩))
        ⟨⟨0, 0, 0⟩, ⟨4, 0, 0⟩, ⟨0, 0, 5/2⟩, ⟨0, 0, -1⟩⟩).normal = 0 ∧
    ((CollisionSystem.slide_collision ⟨1, 0, 3/2⟩ ⟨1, 0, -1⟩
        (⟨⟨-1, -1, -1⟩, ⟨1, 1, 1⟩⟩ : AABB ℝ)
        [⟨⟨0, 0, 0⟩, ⟨4, 0, 0⟩, ⟨0, 0, 5/2⟩, ⟨0, 0, -1⟩⟩] 1).2).dot ⟨1, 0, 0⟩ =
      Vec3.dot ⟨1, 0, -1⟩ ⟨1, 0, 0⟩ := by
  have htent : (⟨1, 0, 3/2⟩ : Vec3 ℝ) + (1:ℝ) • (⟨1, 0, -1⟩ : Vec3 ℝ) =
      (⟨2, 0, 1/2⟩ : Vec3 ℝ) := by
    norm_num [Vec3.add_def, Vec3.smul_def]
  have hso : CollisionSystem.segOffset
      (⟨⟨0, 0, 0⟩, ⟨4, 0, 0⟩, ⟨0, 0, 5/2⟩, ⟨0, 0, -1⟩⟩ : Wall ℝ) 2 (1/2) =
      (0, 1/2) := by
    norm_num [CollisionSystem.segOffset, min_def, max_def]
  have hsd : CollisionSystem.segDistance
      (⟨⟨0, 0, 0⟩, ⟨4, 0, 0⟩, ⟨0, 0, 5/2⟩, ⟨0, 0, -1⟩⟩ : Wall ℝ) 2 (1/2) = 1/2 := by
    unfold CollisionSystem.segDistance
    rw [hso]
    have harg : ((0:ℝ), (1:ℝ)/2).1 * ((0:ℝ), (1:ℝ)/2).1 +
        ((0:ℝ), (1:ℝ)/2).2 * ((0:ℝ), (1:ℝ)/2).2 = (1/2)^2 := by norm_num
    rw [harg, Real.sqrt_sq (by norm_num : (0:ℝ) ≤ 1/2)]
  have hXc : ((⟨⟨-1, -1, -1⟩, ⟨1, 1, 1⟩⟩ : AABB ℝ).translate ⟨2, 0, 1/2⟩).getCenter =
      (⟨2, 0, 1/2⟩ : Vec3 ℝ) := by
    norm_num [AABB.translate, AABB.getCenter, Vec3.add_def, Vec3.smul_def]
  have hXs : ((⟨⟨-1, -1, -1⟩, ⟨1, 1, 1⟩⟩ : AABB ℝ).translate ⟨2, 0, 1/2⟩).getSize =
      (⟨2, 2, 2⟩ : Vec3 ℝ) := by
    norm_num [AABB.translate, AABB.getSize, Vec3.sub_def, Vec3.add_def]
  have h2' : CollisionSystem.segDistance
      (⟨⟨0, 0, 0⟩, ⟨4, 0, 0⟩, ⟨0, 0, 5/2⟩, ⟨0, 0, -1⟩⟩ : Wall ℝ)
      ((⟨⟨-1, -1, -1⟩, ⟨1, 1, 1⟩⟩ : AABB ℝ).translate ⟨2, 0, 1/2⟩).getCenter.x
      ((⟨⟨-1, -1, -1⟩, ⟨1, 1, 1⟩⟩ : AABB ℝ).translate ⟨2, 0, 1/2⟩).getCenter.z <
      Max.max ((⟨⟨-1, -1, -1⟩, ⟨1, 1, 1⟩⟩ : AABB ℝ).translate ⟨2, 0, 1/2⟩).getSize.x
        ((⟨⟨-1, -1, -1⟩, ⟨1, 1, 1⟩⟩ : AABB ℝ).translate ⟨2, 0, 1/2⟩).getSize.z *
        (1/2) := by
    simp only [hXc, hXs]
    norm_num [hsd]
  have hcol : (CollisionSystem.check_aabb_wall_collision
      ((⟨⟨-1, -1, -1⟩, ⟨1, 1, 1⟩⟩ : AABB ℝ).translate
        ((⟨1, 0, 3/2⟩ : Vec3 ℝ) + (1:ℝ) • ⟨1, 0, -1⟩))
      ⟨⟨0, 0, 0⟩, ⟨4, 0, 0⟩, ⟨0, 0, 5/2⟩, ⟨0, 0, -1⟩⟩).collides = true := by
    rw [htent]
    exact (check_collides_iff _ _).mpr ⟨by norm_num, h2'⟩
  have hdcond : CollisionSystem.segDistance
      (⟨⟨0, 0, 0⟩, ⟨4, 0, 0⟩, ⟨0, 0, 5/2⟩, ⟨0, 0, -1⟩⟩ : Wall ℝ)
      ((⟨⟨-1, -1, -1⟩, ⟨1, 1, 1⟩⟩ : AABB ℝ).translate ⟨2, 0, 1/2⟩).getCenter.x
      ((⟨⟨-1, -1, -1⟩, ⟨1, 1, 1⟩⟩ : AABB ℝ).translate ⟨2, 0, 1/2⟩).getCenter.z >
      1/1000000 := by
    simp only [hXc]
    norm_num [hsd]
  have hnormal : (CollisionSystem.check_aabb_wall_collision
      ((⟨⟨-1, -1, -1⟩, ⟨1, 1, 1⟩⟩ : AABB ℝ).translate
        ((⟨1, 0, 3/2⟩ : Vec3 ℝ) + (1:ℝ) • ⟨1, 0, -1⟩))
      ⟨⟨0, 0, 0⟩, ⟨4, 0, 0⟩, ⟨0, 0, 5/2⟩, ⟨0, 0, -1⟩⟩).normal = ⟨0, 0, 1⟩ := by
    rw [htent, check_fields _ _ (by norm_num) h2']
    dsimp only
    rw [if_pos hdcond]
    simp only [hXc]
    norm_num [hso, hsd]
  have h := (slide_collision_single ⟨1, 0, 3/2⟩ ⟨1, 0, -1⟩
    (⟨⟨-1, -1, -1⟩, ⟨1, 1, 1⟩⟩ : AABB ℝ)
    (⟨⟨0, 0, 0⟩, ⟨4, 0, 0⟩, ⟨0, 0, 5/2⟩, ⟨0, 0, -1⟩⟩ : Wall ℝ) 1
    (by norm_num [Wall.normalValid])).2.2 hcol
  have hneg : (⟨1, 0, -1⟩ : Vec3 ℝ).dot
      (CollisionSystem.check_aabb_wall_collision
        ((⟨⟨-1, -1, -1⟩, ⟨1, 1, 1⟩⟩ : AABB ℝ).translate
          ((⟨1, 0, 3/2⟩ : Vec3 ℝ) + (1:ℝ) • ⟨1, 0, -1⟩))
        ⟨⟨0, 0, 0⟩, ⟨4, 0, 0⟩, ⟨0, 0, 5/2⟩, ⟨0, 0, -1⟩⟩).normal < 0 := by
    rw [hnormal]
    norm_num [Vec3.dot]
  obtain ⟨hdot0, htang⟩ := h.2.2.1 hneg
  exact ⟨hdot0, htang ⟨1, 0, 0⟩ (by rw [hnormal]; norm_num [Vec3.dot])⟩
